import Mathlib

/-!
Verification of the articulated-body kinematics and physics core of the
puppet-animation repository: a shallow embedding (over ℝ) of the forward
kinematics, FABRIK inverse kinematics, Verlet physics engine and pose
interpolation, together with theorems settling the specification claims.

Machine floating-point numbers are modelled as real numbers; `Math.cos`,
`Math.sin`, `Math.hypot`, `Math.sqrt` and `Math.atan2` are modelled by the
corresponding exact real functions (`Math.atan2 y x` as `Complex.arg ⟨x, y⟩`,
which agrees with atan2 on all inputs including the axes and the origin).
JavaScript objects and `Map`s keyed by strings are modelled as association
lists in insertion order, matching the iteration order of `Object.entries`
and `Object.keys` used by the source.
-/

namespace Puppet

open Real

/-- 2D point, `{x, y}` in the source (`types.ts`). -/
@[ext]
structure Point where
  x : ℝ
  y : ℝ

instance : Inhabited Point := ⟨⟨0, 0⟩⟩

/-- The six local rotation angles of one limb record of `PoseData`. -/
@[ext]
structure LimbPose where
  shoulder : ℝ
  elbow : ℝ
  hand : ℝ
  hip : ℝ
  knee : ℝ
  foot : ℝ

/-- `PoseData` (`types.ts`): the complete serializable description of a figure. -/
@[ext]
structure PoseData where
  groundTilt : ℝ
  offset : Point
  torso : ℝ
  waist : ℝ
  head : ℝ
  left : LimbPose
  right : LimbPose

/-- A bone segment of the derived skeleton (`types.ts` `BoneSegment`).
The source field `end` is renamed `stop` (`end` is a Lean keyword); the
constant `shape: 'custom'` field is omitted (it never varies). -/
structure BoneSegment where
  key : String
  start : Point
  stop : Point
  width : ℝ
  angle : ℝ

/-- `Skeleton` (`types.ts`): joints as a string-keyed map (association list in
insertion order) plus the ordered bone list. -/
structure Skeleton where
  joints : List (String × Point)
  bones : List BoneSegment

-- --- Constants (kinematics.ts) ---

noncomputable def W : ℝ := 800
noncomputable def H : ℝ := 800
noncomputable def HEAD_UNIT : ℝ := 64
noncomputable def HEAD_SIZE : ℝ := 51
noncomputable def TORSO_HEIGHT : ℝ := HEAD_UNIT * 2.25
noncomputable def WAIST_HEIGHT : ℝ := HEAD_UNIT * 1.25
noncomputable def NECK_LENGTH : ℝ := 0
noncomputable def L_ARM : ℝ := HEAD_UNIT * 1.5
noncomputable def L_FOREARM : ℝ := HEAD_UNIT * 1.5
noncomputable def L_HAND : ℝ := HEAD_UNIT * 0.75
noncomputable def L_THIGH : ℝ := HEAD_UNIT * 1.75
noncomputable def L_SHIN : ℝ := HEAD_UNIT * 1.75
noncomputable def L_FOOT : ℝ := HEAD_UNIT * 0.75

/-- One entry of the static joint tree `hierarchy` (kinematics.ts). -/
structure HierarchyEntry where
  parent : Option String
  children : List String

/-- The fixed joint hierarchy, keyed by joint name; `none` for unknown keys
(JS `hierarchy[key]` being `undefined`). -/
def hierarchy (key : String) : Option HierarchyEntry :=
  if key = "ground" then some ⟨none, ["root"]⟩
  else if key = "root" then some ⟨some "ground", ["torso", "waist"]⟩
  else if key = "torso" then some ⟨some "root", ["head", "left.shoulder", "right.shoulder"]⟩
  else if key = "waist" then some ⟨some "root", ["left.hip", "right.hip"]⟩
  else if key = "head" then some ⟨some "torso", []⟩
  else if key = "left.shoulder" then some ⟨some "torso", ["left.elbow"]⟩
  else if key = "left.elbow" then some ⟨some "left.shoulder", ["left.hand"]⟩
  else if key = "left.hand" then some ⟨some "left.elbow", []⟩
  else if key = "right.shoulder" then some ⟨some "torso", ["right.elbow"]⟩
  else if key = "right.elbow" then some ⟨some "right.shoulder", ["right.hand"]⟩
  else if key = "right.hand" then some ⟨some "right.elbow", []⟩
  else if key = "left.hip" then some ⟨some "waist", ["left.knee"]⟩
  else if key = "left.knee" then some ⟨some "left.hip", ["left.foot"]⟩
  else if key = "left.foot" then some ⟨some "left.knee", []⟩
  else if key = "right.hip" then some ⟨some "waist", ["right.knee"]⟩
  else if key = "right.knee" then some ⟨some "right.hip", ["right.foot"]⟩
  else if key = "right.foot" then some ⟨some "right.knee", []⟩
  else none

/-- The keys of `hierarchy` in declaration order (= `Object.keys(hierarchy)`). -/
def hierarchyKeys : List String :=
  ["ground", "root", "torso", "waist", "head",
   "left.shoulder", "left.elbow", "left.hand",
   "right.shoulder", "right.elbow", "right.hand",
   "left.hip", "left.knee", "left.foot",
   "right.hip", "right.knee", "right.foot"]

/-- `rotatePoint` (kinematics.ts). -/
noncomputable def rotatePoint (x y angle : ℝ) : Point :=
  ⟨x * Real.cos angle - y * Real.sin angle, x * Real.sin angle + y * Real.cos angle⟩

/-- `getEndPoint` (kinematics.ts). -/
noncomputable def getEndPoint (start : Point) (angle length : ℝ) : Point :=
  ⟨start.x + Real.cos angle * length, start.y + Real.sin angle * length⟩

/-- The joints and bones the `['left','right'].forEach` arm loop of
`computeSkeleton` stores for one side, given that side's three literal joint
keys and signed shoulder offset. -/
noncomputable def armPart (sKey eKey hKey : String) (shoulderX : ℝ) (limb : LimbPose)
    (neckPos : Point) (torsoAngle : ℝ) : List (String × Point) × List BoneSegment :=
  let sOffset := rotatePoint shoulderX 0 torsoAngle
  let sPos : Point := ⟨neckPos.x + sOffset.x, neckPos.y + sOffset.y⟩
  let sAngle := torsoAngle + limb.shoulder
  let ePos := getEndPoint sPos sAngle L_ARM
  let eAngle := sAngle + limb.elbow
  let hPos := getEndPoint ePos eAngle L_FOREARM
  let hAngle := eAngle + limb.hand
  let handEnd := getEndPoint hPos hAngle L_HAND
  ([(sKey, sPos), (eKey, ePos), (hKey, hPos)],
   [⟨sKey, sPos, ePos, 36, sAngle⟩, ⟨eKey, ePos, hPos, 28, eAngle⟩,
    ⟨hKey, hPos, handEnd, 16, hAngle⟩])

/-- The joints and bones the `['left','right'].forEach` leg loop of
`computeSkeleton` stores for one side.  Note the leg bones record
`angle - π/2`, unlike the arm bones. -/
noncomputable def legPart (hKey kKey fKey : String) (hipX : ℝ) (limb : LimbPose)
    (waistEnd : Point) (waistAngle : ℝ) : List (String × Point) × List BoneSegment :=
  let hOffset := rotatePoint hipX 0 waistAngle
  let hPos : Point := ⟨waistEnd.x + hOffset.x, waistEnd.y + hOffset.y⟩
  let hAngle := waistAngle + limb.hip
  let kPos := getEndPoint hPos hAngle L_THIGH
  let kAngle := hAngle + limb.knee
  let fPos := getEndPoint kPos kAngle L_SHIN
  let fAngle := kAngle + limb.foot
  let footEnd := getEndPoint fPos fAngle L_FOOT
  ([(hKey, hPos), (kKey, kPos), (fKey, fPos)],
   [⟨hKey, hPos, kPos, 44, hAngle - π / 2⟩, ⟨kKey, kPos, fPos, 32, kAngle - π / 2⟩,
    ⟨fKey, fPos, footEnd, 18, fAngle - π / 2⟩])

/-- `computeSkeleton` (kinematics.ts): forward kinematics, Pose → Skeleton.
Joints are listed in the source's insertion order, bones in push order; the
two iterations of each `['left','right'].forEach` loop are unrolled via
`armPart`/`legPart`. -/
noncomputable def computeSkeleton (pose : PoseData) : Skeleton :=
  let groundBaseYOffset := WAIST_HEIGHT + L_THIGH + L_SHIN
  let groundBasePos : Point := ⟨W / 2, 650 + pose.offset.y⟩
  let rootPos : Point := ⟨W / 2 + pose.offset.x, groundBasePos.y - groundBaseYOffset⟩
  let groundAngle := pose.groundTilt
  let torsoAngle := groundAngle + pose.torso
  let waistAngle := groundAngle + pose.waist
  let neckPos := getEndPoint rootPos (torsoAngle - π / 2) TORSO_HEIGHT
  let waistEnd := getEndPoint rootPos (waistAngle + π / 2) WAIST_HEIGHT
  let neckEndPos := getEndPoint neckPos (torsoAngle - π / 2) NECK_LENGTH
  let headAngle := torsoAngle + pose.head
  let headEnd := getEndPoint neckPos headAngle 1
  let leftArm := armPart "left.shoulder" "left.elbow" "left.hand" (-48) pose.left neckPos torsoAngle
  let rightArm := armPart "right.shoulder" "right.elbow" "right.hand" 48 pose.right neckPos torsoAngle
  let leftLeg := legPart "left.hip" "left.knee" "left.foot" (-29) pose.left waistEnd waistAngle
  let rightLeg := legPart "right.hip" "right.knee" "right.foot" 29 pose.right waistEnd waistAngle
  { joints := [("root", rootPos), ("ground", groundBasePos), ("torso", neckPos),
               ("waist", waistEnd), ("head", neckPos)] ++
              leftArm.1 ++ rightArm.1 ++ leftLeg.1 ++ rightLeg.1,
    bones := [⟨"ground", groundBasePos, groundBasePos, 100, groundAngle⟩,
              ⟨"torso", rootPos, neckPos, 100, torsoAngle⟩,
              ⟨"waist", rootPos, waistEnd, 60, waistAngle⟩,
              ⟨"neck", neckPos, neckEndPos, 13, torsoAngle⟩,
              ⟨"head", neckPos, headEnd, HEAD_SIZE, headAngle⟩] ++
             leftArm.2 ++ rightArm.2 ++ leftLeg.2 ++ rightLeg.2 }

/-- Split a character list at every occurrence of `c` (the semantics of
JS `String.prototype.split` for a single-character separator). -/
def splitCharAux (c : Char) : List Char → List Char → List (List Char)
  | [], acc => [acc.reverse]
  | x :: xs, acc =>
    if x = c then acc.reverse :: splitCharAux c xs []
    else splitCharAux c xs (x :: acc)

/-- `key.split('.')` of the source. -/
def splitDot (s : String) : List String :=
  (splitCharAux '.' s.data []).map (fun l => ⟨l⟩)

/-- `pose[side]` for `side ∈ {'left','right'}` (the only values the source
ever passes; any other string is unreachable in the source). -/
def poseSide (pose : PoseData) (side : String) : LimbPose :=
  if side = "left" then pose.left else pose.right

/-- `getParentWorldAngle` (kinematics.ts).  `none` models the JS `null`
return; note that `hierarchy[key]?.parent` being `undefined` (unknown key) or
`null` (key `'ground'`) both fail the `if (!parentKey)` truthiness test, so
both fall into the `return 0` branch. -/
noncomputable def getParentWorldAngle (key : String) (pose : PoseData) : Option ℝ :=
  match (hierarchy key).bind (·.parent) with
  | none => some 0
  | some parentKey =>
    if parentKey = "ground" then some pose.groundTilt
    else if parentKey = "torso" then some (pose.groundTilt + pose.torso)
    else if parentKey = "waist" then some (pose.groundTilt + pose.waist)
    else if parentKey = "root" then some pose.groundTilt
    else
      let parts := splitDot parentKey
      let side := parts.getD 0 ""
      let jointName := parts.getD 1 ""
      if jointName = "shoulder" then
        some (pose.groundTilt + pose.torso + (poseSide pose side).shoulder)
      else if jointName = "elbow" then
        some (pose.groundTilt + pose.torso + (poseSide pose side).shoulder +
              (poseSide pose side).elbow)
      else if jointName = "hip" then
        some (pose.groundTilt + pose.waist + (poseSide pose side).hip)
      else if jointName = "knee" then
        some (pose.groundTilt + pose.waist + (poseSide pose side).hip +
              (poseSide pose side).knee)
      else none

/-- The world angle recorded on the bone whose key is `k` (first match in the
bone list, mirroring how consumers index bones by key). -/
noncomputable def boneAngle (s : Skeleton) (k : String) : Option ℝ :=
  (s.bones.find? (fun b => b.key == k)).map (·.angle)

-- --- Pose interpolation (interpolation.ts) ---

/-- The two easing-function names accepted by `interpolatePose`. -/
inductive Easing where
  | linear
  | sine

/-- `linearEase` / `sineEase` (easeInOutSine) of the source. -/
noncomputable def easingFn : Easing → ℝ → ℝ
  | .linear => fun t => t
  | .sine => fun t => 0.5 * (1 - Real.cos (t * π))

/-- Interpolation of one numeric leaf by `recursiveInterpolate`:
`a * (1 - easedT) + b * easedT`. -/
noncomputable def lerpLeaf (f : ℝ → ℝ) (t a b : ℝ) : ℝ :=
  let easedT := f t
  a * (1 - easedT) + b * easedT

/-- `interpolatePose` (interpolation.ts).  `recursiveInterpolate` walks the
keys shared by both objects; on the fixed `PoseData` shape (all leaves
numeric, both records of the same shape) this unfolds to interpolating every
numeric field, which is spelled out here field by field.  `t` is clamped with
`Math.max(0, Math.min(1, t))` before use. -/
noncomputable def interpolatePose (poseA poseB : PoseData) (t : ℝ) (easing : Easing) : PoseData :=
  let f := easingFn easing
  let ct := max 0 (min 1 t)
  { groundTilt := lerpLeaf f ct poseA.groundTilt poseB.groundTilt
    offset := ⟨lerpLeaf f ct poseA.offset.x poseB.offset.x,
               lerpLeaf f ct poseA.offset.y poseB.offset.y⟩
    torso := lerpLeaf f ct poseA.torso poseB.torso
    waist := lerpLeaf f ct poseA.waist poseB.waist
    head := lerpLeaf f ct poseA.head poseB.head
    left := ⟨lerpLeaf f ct poseA.left.shoulder poseB.left.shoulder,
             lerpLeaf f ct poseA.left.elbow poseB.left.elbow,
             lerpLeaf f ct poseA.left.hand poseB.left.hand,
             lerpLeaf f ct poseA.left.hip poseB.left.hip,
             lerpLeaf f ct poseA.left.knee poseB.left.knee,
             lerpLeaf f ct poseA.left.foot poseB.left.foot⟩
    right := ⟨lerpLeaf f ct poseA.right.shoulder poseB.right.shoulder,
              lerpLeaf f ct poseA.right.elbow poseB.right.elbow,
              lerpLeaf f ct poseA.right.hand poseB.right.hand,
              lerpLeaf f ct poseA.right.hip poseB.right.hip,
              lerpLeaf f ct poseA.right.knee poseB.right.knee,
              lerpLeaf f ct poseA.right.foot poseB.right.foot⟩ }

-- --- Inverse kinematics (ik.ts) ---

/-- `Math.hypot a b`. -/
noncomputable def hypot (a b : ℝ) : ℝ := Real.sqrt (a ^ 2 + b ^ 2)

/-- `distance` (ik.ts): `Math.hypot(p1.x - p2.x, p1.y - p2.y)`. -/
noncomputable def distance (p1 p2 : Point) : ℝ := hypot (p1.x - p2.x) (p1.y - p2.y)

/-- The per-segment rest lengths of a chain: `lengths[i] =
distance(chain[i], chain[i+1])` for `i < chain.length - 1`. -/
noncomputable def segLengths (chain : List Point) : List ℝ :=
  (List.range (chain.length - 1)).map
    (fun i => distance (chain.getD i default) (chain.getD (i + 1) default))

/-- One step `i` of the unreachable-target stretch loop of `solveFabrik`:
`solvedChain[i+1] = (1-λ)·solvedChain[i] + λ·target` with
`λ = lengths[i] / distance(solvedChain[i], target)`. -/
noncomputable def stretchUpdate (lengths : List ℝ) (target : Point)
    (ch : List Point) (i : ℕ) : List Point :=
  let p := ch.getD i default
  let r := distance p target
  let lam := lengths.getD i 0 / r
  ch.set (i + 1) ⟨(1 - lam) * p.x + lam * target.x, (1 - lam) * p.y + lam * target.y⟩

/-- The stretch loop `for (i = 0; i < length-1; i++)`. -/
noncomputable def stretchChain (lengths : List ℝ) (target : Point)
    (ch : List Point) : List Point :=
  (List.range (ch.length - 1)).foldl (stretchUpdate lengths target) ch

/-- One step of the FABRIK forward pass (walking from `length-2` down to 0):
`solvedChain[i] = (1-λ)·solvedChain[i+1] + λ·solvedChain[i]`. -/
noncomputable def forwardUpdate (lengths : List ℝ) (ch : List Point) (i : ℕ) : List Point :=
  let p := ch.getD i default
  let q := ch.getD (i + 1) default
  let r := distance p q
  let lam := lengths.getD i 0 / r
  ch.set i ⟨(1 - lam) * q.x + lam * p.x, (1 - lam) * q.y + lam * p.y⟩

/-- FABRIK forward pass: pin the end effector to the target, then re-project
each prior joint. -/
noncomputable def forwardPass (lengths : List ℝ) (target : Point)
    (ch : List Point) : List Point :=
  let ch1 := ch.set (ch.length - 1) target
  ((List.range (ch.length - 1)).reverse).foldl (forwardUpdate lengths) ch1

/-- One step of the FABRIK backward pass:
`solvedChain[i+1] = (1-λ)·solvedChain[i] + λ·solvedChain[i+1]`. -/
noncomputable def backwardUpdate (lengths : List ℝ) (ch : List Point) (i : ℕ) : List Point :=
  let p := ch.getD i default
  let q := ch.getD (i + 1) default
  let r := distance p q
  let lam := lengths.getD i 0 / r
  ch.set (i + 1) ⟨(1 - lam) * p.x + lam * q.x, (1 - lam) * p.y + lam * q.y⟩

/-- FABRIK backward pass: pin the root, then re-project each later joint. -/
noncomputable def backwardPass (lengths : List ℝ) (root : Point)
    (ch : List Point) : List Point :=
  (List.range (ch.length - 1)).foldl (backwardUpdate lengths) (ch.set 0 root)

/-- The `while (distance(endEffector, target) > tolerance && iter < iterations)`
loop of `solveFabrik`, with the remaining iteration budget as fuel. -/
noncomputable def fabrikLoop (lengths : List ℝ) (root target : Point) (tolerance : ℝ) :
    ℕ → List Point → List Point
  | 0, ch => ch
  | fuel + 1, ch =>
    if tolerance < distance (ch.getD (ch.length - 1) default) target then
      fabrikLoop lengths root target tolerance fuel
        (backwardPass lengths root (forwardPass lengths target ch))
    else ch

/-- `solveFabrik` (ik.ts).  The source first copies the chain
(`chain.map(p => ({...p}))`), which is the identity at value level. -/
noncomputable def solveFabrik (chain : List Point) (target : Point)
    (iterations : ℕ := 10) (tolerance : ℝ := 0.1) : List Point :=
  if chain.length = 0 then []
  else
    let lengths := segLengths chain
    let totalLength := lengths.sum
    let root := chain.getD 0 default
    let distToTarget := distance root target
    if totalLength < distToTarget then stretchChain lengths target chain
    else fabrikLoop lengths root target tolerance iterations chain

/-- `solveIK` (kinematics.ts) — the analytic 2-segment solver; included for
completeness of the engine surface. -/
noncomputable def solveIK (rootPos targetPos : Point) (l1 l2 : ℝ) : Option (ℝ × ℝ) :=
  let dx := targetPos.x - rootPos.x
  let dy := targetPos.y - rootPos.y
  let distSq := dx * dx + dy * dy
  let d := Real.sqrt distSq
  if l1 + l2 < d then some (Complex.arg ⟨dx, dy⟩, 0)
  else if d < |l1 - l2| then none
  else
    let a1 := Real.arccos ((distSq + l1 * l1 - l2 * l2) / (2 * d * l1))
    let a2 := Real.arccos ((l1 * l1 + l2 * l2 - distSq) / (2 * l1 * l2))
    some (Complex.arg ⟨dx, dy⟩ - a1, π - a2)

-- --- Physics engine (physics.ts) ---

/-- `Math.atan2 y x`, modelled exactly by the complex argument of `x + y·i`
(both lie in `(-π, π]`, agree on the axes, and are `0` at the origin). -/
noncomputable def atan2 (y x : ℝ) : ℝ := Complex.arg ⟨x, y⟩

/-- `PhysicsParticle` (types.ts). -/
structure PhysicsParticle where
  id : String
  pos : Point
  prevPos : Point
  mass : ℝ

instance : Inhabited PhysicsParticle := ⟨⟨"", default, default, 0⟩⟩

/-- `PhysicsConstraint` (types.ts). -/
structure PhysicsConstraint where
  particleAIndex : ℕ
  particleBIndex : ℕ
  restLength : ℝ

/-- `PhysicsBody` (types.ts); the `Map<string, number>` is an association
list in insertion order. -/
structure PhysicsBody where
  particles : List PhysicsParticle
  constraints : List PhysicsConstraint
  particleMap : List (String × ℕ)

-- Simulation constants (physics.ts)

noncomputable def GRAVITY : Point := ⟨0, 9.8 * 100⟩
noncomputable def FRICTION : ℝ := 0.99
noncomputable def GROUND_FRICTION : ℝ := 0.85
def SOLVER_ITERATIONS : ℕ := 10
noncomputable def GROUND_PLANE_Y : ℝ := H - 40
noncomputable def STIFFNESS : ℝ := 0.6
noncomputable def DAMPING : ℝ := 0.4

/-- Whether `sub` occurs at the start of some suffix of `l`. -/
def subAt (sub : List Char) : List Char → Bool
  | [] => sub.isPrefixOf []
  | l@(_ :: xs) => sub.isPrefixOf l || subAt sub xs

/-- JS `String.prototype.includes` (substring containment). -/
def includes (s sub : String) : Bool := subAt sub.data s.data

/-- The body of the `Object.entries(skeleton.joints).forEach` loop of
`createPhysicsBodyFromPose`: a particle built from one joint entry, with the
source's mass assignment (default `1.0`, overridden to `3.0` for the core
keys and then to `0.5` for keys containing `'hand'` or `'foot'`). -/
noncomputable def mkParticle (e : String × Point) : PhysicsParticle :=
  let mass1 : ℝ :=
    if e.1 == "root" || e.1 == "waist" || e.1 == "torso" || e.1 == "neck" then 3.0 else 1.0
  let mass2 : ℝ :=
    if includes e.1 "hand" || includes e.1 "foot" then 0.5 else mass1
  { id := e.1, pos := e.2, prevPos := e.2, mass := mass2 }

/-- The joint entries `createPhysicsBodyFromPose` iterates over:
`Object.entries(skeleton.joints)` minus the `'ground'` joint. -/
noncomputable def bodyEntries (pose : PoseData) : List (String × Point) :=
  (computeSkeleton pose).joints.filter (fun e => !(e.1 == "ground"))

/-- The `particleMap` of the created body: each joint key mapped to the index
at which its particle was pushed. -/
noncomputable def bodyMap (pose : PoseData) : List (String × ℕ) :=
  (bodyEntries pose).enum.map (fun q => (q.2.1, q.1))

/-- The particle array of the created body. -/
noncomputable def bodyParticles (pose : PoseData) : List PhysicsParticle :=
  (bodyEntries pose).map mkParticle

/-- The body of the `children.forEach` loop of `createPhysicsBodyFromPose`:
append a constraint for one parent-child edge if the child has a particle
and the rest length (the current joint distance) exceeds `0.1`. -/
noncomputable def childConstraint (particles : List PhysicsParticle)
    (pm : List (String × ℕ)) (parentIndex : ℕ) (acc2 : List PhysicsConstraint)
    (childKey : String) : List PhysicsConstraint :=
  match List.lookup childKey pm with
  | none => acc2
  | some childIndex =>
    let parentParticle := particles.getD parentIndex default
    let childParticle := particles.getD childIndex default
    let restLength := hypot (childParticle.pos.x - parentParticle.pos.x)
                            (childParticle.pos.y - parentParticle.pos.y)
    if 0.1 < restLength then acc2 ++ [⟨parentIndex, childIndex, restLength⟩] else acc2

/-- The body of the `Object.keys(hierarchy).forEach` loop of
`createPhysicsBodyFromPose`. -/
noncomputable def constraintStep (particles : List PhysicsParticle)
    (pm : List (String × ℕ)) (acc : List PhysicsConstraint)
    (parentKey : String) : List PhysicsConstraint :=
  if parentKey == "ground" then acc
  else match List.lookup parentKey pm with
    | none => acc
    | some parentIndex =>
      match hierarchy parentKey with
      | none => acc
      | some entry => entry.children.foldl (childConstraint particles pm parentIndex) acc

/-- The constraint array of the created body. -/
noncomputable def bodyConstraints (pose : PoseData) : List PhysicsConstraint :=
  hierarchyKeys.foldl (constraintStep (bodyParticles pose) (bodyMap pose)) []

/-- `createPhysicsBodyFromPose` (physics.ts).  Particles are created from the
skeleton joints in entry order, skipping `'ground'`; `particleMap` records
each key's index; constraints are created by walking `hierarchy` in key
order, skipping missing endpoints and rest lengths `≤ 0.1`. -/
noncomputable def createPhysicsBodyFromPose (pose : PoseData) : PhysicsBody :=
  { particles := bodyParticles pose,
    constraints := bodyConstraints pose,
    particleMap := bodyMap pose }

/-- Phase 1 of `updatePhysicsBody` for one particle: Verlet integration with
gravity plus the PD steering force when the target skeleton has an entry for
this particle's id.  Zero-mass particles are skipped. -/
noncomputable def integrateParticle (dtSq : ℝ) (targetSkeleton : Option Skeleton)
    (p : PhysicsParticle) : PhysicsParticle :=
  if p.mass = 0 then p
  else
    let velocity : Point := ⟨(p.pos.x - p.prevPos.x) * FRICTION,
                             (p.pos.y - p.prevPos.y) * FRICTION⟩
    let accel : Point :=
      match targetSkeleton with
      | none => GRAVITY
      | some sk =>
        match List.lookup p.id sk.joints with
        | none => GRAVITY
        | some targetPos =>
          let springForce : Point := ⟨(targetPos.x - p.pos.x) * STIFFNESS,
                                      (targetPos.y - p.pos.y) * STIFFNESS⟩
          let dampingForce : Point := ⟨-velocity.x * DAMPING, -velocity.y * DAMPING⟩
          ⟨GRAVITY.x + (springForce.x + dampingForce.x) / p.mass,
           GRAVITY.y + (springForce.y + dampingForce.y) / p.mass⟩
    { p with
      pos := ⟨p.pos.x + velocity.x + accel.x * dtSq, p.pos.y + velocity.y + accel.y * dtSq⟩
      prevPos := p.pos }

/-- One distance-constraint relaxation of phase 2 of `updatePhysicsBody`.
Out-of-range indices are totalized with the default particle (the JS source
would fault there); when the two indices are equal the `dist < 0.001` guard
fires, so the two sequential writes never alias. -/
noncomputable def solveConstraint (ps : List PhysicsParticle)
    (c : PhysicsConstraint) : List PhysicsParticle :=
  let pA := ps.getD c.particleAIndex default
  let pB := ps.getD c.particleBIndex default
  let delta : Point := ⟨pB.pos.x - pA.pos.x, pB.pos.y - pA.pos.y⟩
  let d := hypot delta.x delta.y
  if d < 0.001 then ps
  else
    let diff := (d - c.restLength) / d
    let totalMass := pA.mass + pB.mass
    if totalMass = 0 then ps
    else
      let pAShare := if 0 < pA.mass then pA.mass / totalMass else 1
      let pBShare := if 0 < pB.mass then pB.mass / totalMass else 1
      let ps1 := ps.set c.particleAIndex
        { pA with pos := ⟨pA.pos.x + delta.x * diff * pBShare,
                          pA.pos.y + delta.y * diff * pBShare⟩ }
      ps1.set c.particleBIndex
        { pB with pos := ⟨pB.pos.x - delta.x * diff * pAShare,
                          pB.pos.y - delta.y * diff * pAShare⟩ }

/-- One Gauss-Seidel pass over all constraints. -/
noncomputable def solverPass (cs : List PhysicsConstraint)
    (ps : List PhysicsParticle) : List PhysicsParticle :=
  cs.foldl solveConstraint ps

/-- Phase 3 of `updatePhysicsBody` for one particle: ground-plane collision
(with velocity damping, ground friction, and foot pinning) followed by the
two horizontal canvas clamps. -/
noncomputable def collideParticle (p : PhysicsParticle) : PhysicsParticle :=
  let p1 :=
    if GROUND_PLANE_Y < p.pos.y then
      let vel : Point := ⟨p.pos.x - p.prevPos.x, p.pos.y - p.prevPos.y⟩
      let pos' : Point := ⟨p.pos.x, GROUND_PLANE_Y⟩
      let prevY := pos'.y + vel.y * 0.1
      if includes p.id "foot" then { p with pos := pos', prevPos := ⟨pos'.x, prevY⟩ }
      else { p with pos := pos', prevPos := ⟨pos'.x - vel.x * GROUND_FRICTION, prevY⟩ }
    else p
  let p2 := if p1.pos.x < 10 then { p1 with pos := ⟨10, p1.pos.y⟩ } else p1
  if W - 10 < p2.pos.x then { p2 with pos := ⟨W - 10, p2.pos.y⟩ } else p2

/-- `updatePhysicsBody` (physics.ts): one simulation step, as a pure state
transformer (the source mutates `body` in place).  Integrate, then
`SOLVER_ITERATIONS` constraint passes, then collision resolution. -/
noncomputable def updatePhysicsBody (body : PhysicsBody) (dt : ℝ)
    (targetSkeleton : Option Skeleton) : PhysicsBody :=
  let dtSq := dt * dt
  let ps1 := body.particles.map (integrateParticle dtSq targetSkeleton)
  let ps2 := (List.range SOLVER_ITERATIONS).foldl
    (fun ps _ => solverPass body.constraints ps) ps1
  let ps3 := ps2.map collideParticle
  { body with particles := ps3 }

/-- `getParticlePos` inside `extractPoseFromPhysicsBody`. -/
noncomputable def getParticlePos (body : PhysicsBody) (key : String) : Option Point :=
  (List.lookup key body.particleMap).map (fun i => (body.particles.getD i default).pos)

/-- Update one limb field selected by its joint name (identity for a name
that is not a limb field, which never occurs for hierarchy keys). -/
def setLimbField (limb : LimbPose) (jointName : String) (v : ℝ) : LimbPose :=
  if jointName = "shoulder" then { limb with shoulder := v }
  else if jointName = "elbow" then { limb with elbow := v }
  else if jointName = "hand" then { limb with hand := v }
  else if jointName = "hip" then { limb with hip := v }
  else if jointName = "knee" then { limb with knee := v }
  else if jointName = "foot" then { limb with foot := v }
  else limb

/-- The dynamic pose-field write of `calculateAngles`:
`newPose[side][joint] = v` when the key has the form `side.joint`, else
`newPose[key] = v`.  A key that is not a `PoseData` field leaves the pose
unchanged (the JS assignment would create a stray property invisible to
every `PoseData` reader). -/
def setPoseField (pose : PoseData) (key : String) (v : ℝ) : PoseData :=
  match splitDot key with
  | [side, jointName] =>
    if side = "left" then { pose with left := setLimbField pose.left jointName v }
    else if side = "right" then { pose with right := setLimbField pose.right jointName v }
    else pose
  | _ =>
    if key = "torso" then { pose with torso := v }
    else if key = "waist" then { pose with waist := v }
    else if key = "head" then { pose with head := v }
    else pose

/-- The recursive `calculateAngles` of `extractPoseFromPhysicsBody`, with a
fuel parameter for termination (the fixed hierarchy has depth ≤ 6, so any
fuel ≥ 17 never runs out; the extraction entry point passes 17).  The
source's `worldAngles` map is only ever written, never read, and is omitted. -/
noncomputable def calculateAngles (body : PhysicsBody) :
    ℕ → String → ℝ → PoseData → PoseData
  | 0, _, _, acc => acc
  | fuel + 1, parentKey, parentWorldAngle, acc =>
    match hierarchy parentKey with
    | none => acc
    | some entry =>
      entry.children.foldl (fun acc2 childKey =>
        match getParticlePos body parentKey, getParticlePos body childKey with
        | some parentPos, some childPos =>
          let dx := childPos.x - parentPos.x
          let dy := childPos.y - parentPos.y
          let childWorldAngle := atan2 dy dx
          let localAngle := childWorldAngle - parentWorldAngle
          calculateAngles body fuel childKey childWorldAngle
            (setPoseField acc2 childKey localAngle)
        | _, _ => acc2) acc

/-- `extractPoseFromPhysicsBody` (physics.ts): project particle positions
back to a `PoseData`, starting from a deep clone of `initialPose` (value copy
here). -/
noncomputable def extractPoseFromPhysicsBody (body : PhysicsBody)
    (initialPose : PoseData) : PoseData :=
  match getParticlePos body "root", getParticlePos body "torso",
        getParticlePos body "waist" with
  | some rootPos, some torsoPos, some waistPos =>
    let avgCoreX := (torsoPos.x + waistPos.x) / 2
    let avgCoreY := (torsoPos.y + waistPos.y) / 2
    let groundAngle := atan2 (avgCoreY - rootPos.y) (avgCoreX - rootPos.x) - π / 2
    let groundBaseYOffset := WAIST_HEIGHT + L_THIGH + L_SHIN
    let p1 := { initialPose with
      groundTilt := groundAngle
      offset := ⟨rootPos.x - W / 2, rootPos.y + groundBaseYOffset - 650⟩ }
    calculateAngles body 17 "root" groundAngle p1
  | _, _, _ => initialPose

/-- The arithmetic mean of two poses, field by field (the comparison value
named by the interpolation-boundary property). -/
noncomputable def meanPose (a b : PoseData) : PoseData :=
  { groundTilt := (a.groundTilt + b.groundTilt) / 2
    offset := ⟨(a.offset.x + b.offset.x) / 2, (a.offset.y + b.offset.y) / 2⟩
    torso := (a.torso + b.torso) / 2
    waist := (a.waist + b.waist) / 2
    head := (a.head + b.head) / 2
    left := ⟨(a.left.shoulder + b.left.shoulder) / 2, (a.left.elbow + b.left.elbow) / 2,
             (a.left.hand + b.left.hand) / 2, (a.left.hip + b.left.hip) / 2,
             (a.left.knee + b.left.knee) / 2, (a.left.foot + b.left.foot) / 2⟩
    right := ⟨(a.right.shoulder + b.right.shoulder) / 2, (a.right.elbow + b.right.elbow) / 2,
              (a.right.hand + b.right.hand) / 2, (a.right.hip + b.right.hip) / 2,
              (a.right.knee + b.right.knee) / 2, (a.right.foot + b.right.foot) / 2⟩ }

/-- The id and mass of one particle, the data a physics step must not touch. -/
def pidMass (p : PhysicsParticle) : String × ℝ := (p.id, p.mass)

/-- The point at arc length `s` along the ray from `p0` toward `target`, where
`d` is the distance from `p0` to `target` — the straight-line re-projection
the spec's stretch fallback describes. -/
noncomputable def rayPoint (p0 target : Point) (s d : ℝ) : Point :=
  ⟨p0.x + s / d * (target.x - p0.x), p0.y + s / d * (target.y - p0.y)⟩

/-- A minimal two-particle body: zero-mass particle `"a"` at `(100,100)` and
unit-mass particle `"b"` at `(102,100)`, joined by a distance constraint with
rest length `1` (current length `2`). -/
noncomputable def zeroMassBody : PhysicsBody :=
  { particles := [⟨"a", ⟨100, 100⟩, ⟨100, 100⟩, 0⟩, ⟨"b", ⟨102, 100⟩, ⟨102, 100⟩, 1⟩],
    constraints := [⟨0, 1, 1⟩],
    particleMap := [("a", 0), ("b", 1)] }

/-- A one-particle, no-constraint body used as a concrete physics-step
input. -/
noncomputable def singleBody : PhysicsBody :=
  { particles := [⟨"p", ⟨100, 100⟩, ⟨100, 100⟩, 1⟩],
    constraints := [],
    particleMap := [("p", 0)] }

/-- The pose with every angle and the offset equal to zero. -/
noncomputable def zeroPose : PoseData :=
  { groundTilt := 0, offset := ⟨0, 0⟩, torso := 0, waist := 0, head := 0,
    left := ⟨0, 0, 0, 0, 0, 0⟩, right := ⟨0, 0, 0, 0, 0, 0⟩ }

-- --- Heap model of solveFabrik (C8) ---

/-!
To state that `solveFabrik` never mutates its input, the JS heap is made
explicit: an arena of point objects addressed by allocation index.  The JS
source contains no assignment to a point's fields and no assignment to the
input array's slots — every write allocates a fresh object literal
(`{...p}`, `{x:…, y:…}`, `{...target}`) and stores its address in the local
`solvedChain` array — so the arena translation of the function only ever
reads existing cells and appends new ones.  Input chains are lists of
addresses; the input array itself is immutable data here because the source
never writes `chain[i]`.
-/

/-- The heap of point objects: cell `a` is the object allocated `a`-th. -/
structure Arena where
  cells : List Point

/-- Read the object at address `a`. -/
def readA (s : Arena) (a : ℕ) : Point := s.cells.getD a default

/-- Allocate a fresh object holding `p`; returns the new heap and the
address. -/
def allocA (s : Arena) (p : Point) : Arena × ℕ := (⟨s.cells ++ [p]⟩, s.cells.length)

/-- `chain.map(p => ({...p}))`: allocate a copy of each input object, reading
the originals from the entry heap `s0`. -/
def copyChainA (s0 : Arena) : Arena → List ℕ → Arena × List ℕ
  | s, [] => (s, [])
  | s, a :: rest =>
    let al := allocA s (readA s0 a)
    let rec2 := copyChainA s0 al.1 rest
    (rec2.1, al.2 :: rec2.2)

/-- One step of the stretch loop, on the heap: allocate the re-projected
point and store its address in slot `i+1`. -/
noncomputable def stretchUpdateA (lengths : List ℝ) (target : Point)
    (st : Arena × List ℕ) (i : ℕ) : Arena × List ℕ :=
  let p := readA st.1 (st.2.getD i 0)
  let r := distance p target
  let lam := lengths.getD i 0 / r
  let al := allocA st.1 ⟨(1 - lam) * p.x + lam * target.x, (1 - lam) * p.y + lam * target.y⟩
  (al.1, st.2.set (i + 1) al.2)

/-- The stretch loop on the heap. -/
noncomputable def stretchChainA (lengths : List ℝ) (target : Point)
    (st : Arena × List ℕ) : Arena × List ℕ :=
  (List.range (st.2.length - 1)).foldl (stretchUpdateA lengths target) st

/-- One step of the forward pass, on the heap (stores into slot `i`). -/
noncomputable def forwardUpdateA (lengths : List ℝ) (st : Arena × List ℕ)
    (i : ℕ) : Arena × List ℕ :=
  let p := readA st.1 (st.2.getD i 0)
  let q := readA st.1 (st.2.getD (i + 1) 0)
  let r := distance p q
  let lam := lengths.getD i 0 / r
  let al := allocA st.1 ⟨(1 - lam) * q.x + lam * p.x, (1 - lam) * q.y + lam * p.y⟩
  (al.1, st.2.set i al.2)

/-- The forward pass on the heap: `solvedChain[len-1] = {...target}` (a fresh
copy of the target), then walk down to slot 0. -/
noncomputable def forwardPassA (lengths : List ℝ) (target : Point)
    (st : Arena × List ℕ) : Arena × List ℕ :=
  let al := allocA st.1 target
  ((List.range (st.2.length - 1)).reverse).foldl (forwardUpdateA lengths)
    (al.1, st.2.set (st.2.length - 1) al.2)

/-- One step of the backward pass, on the heap (stores into slot `i+1`). -/
noncomputable def backwardUpdateA (lengths : List ℝ) (st : Arena × List ℕ)
    (i : ℕ) : Arena × List ℕ :=
  let p := readA st.1 (st.2.getD i 0)
  let q := readA st.1 (st.2.getD (i + 1) 0)
  let r := distance p q
  let lam := lengths.getD i 0 / r
  let al := allocA st.1 ⟨(1 - lam) * p.x + lam * q.x, (1 - lam) * p.y + lam * q.y⟩
  (al.1, st.2.set (i + 1) al.2)

/-- The backward pass on the heap: `solvedChain[0] = root` (the address of
the root copy, not a new allocation), then walk up. -/
noncomputable def backwardPassA (lengths : List ℝ) (rootAddr : ℕ)
    (st : Arena × List ℕ) : Arena × List ℕ :=
  (List.range (st.2.length - 1)).foldl (backwardUpdateA lengths)
    (st.1, st.2.set 0 rootAddr)

/-- The FABRIK iteration loop on the heap (fuel = remaining iterations). -/
noncomputable def fabrikLoopA (lengths : List ℝ) (rootAddr : ℕ) (target : Point)
    (tolerance : ℝ) : ℕ → Arena × List ℕ → Arena × List ℕ
  | 0, st => st
  | fuel + 1, st =>
    if tolerance < distance (readA st.1 (st.2.getD (st.2.length - 1) 0)) target then
      fabrikLoopA lengths rootAddr target tolerance fuel
        (backwardPassA lengths rootAddr (forwardPassA lengths target st))
    else st

/-- `solveFabrik` on the explicit heap: the input is a list of addresses into
the entry heap `s`; the result is the final heap and the `solvedChain`
address list. -/
noncomputable def solveFabrikA (s : Arena) (chain : List ℕ) (target : Point)
    (iterations : ℕ) (tolerance : ℝ) : Arena × List ℕ :=
  if chain.length = 0 then (s, [])
  else
    let cp := copyChainA s s chain
    let lengths := segLengths (cp.2.map (readA cp.1))
    let totalLength := lengths.sum
    let al := allocA cp.1 (readA cp.1 (cp.2.getD 0 0))
    let distToTarget := distance (readA al.1 al.2) target
    if totalLength < distToTarget then stretchChainA lengths target (al.1, cp.2)
    else fabrikLoopA lengths al.2 target tolerance iterations (al.1, cp.2)

/-- Heap extension: `s'` is `s` with zero or more cells appended; existing
objects are untouched. -/
def ArenaLE (s s' : Arena) : Prop := ∃ ext, s'.cells = s.cells ++ ext

-- --- Theorems ---

/-- `hypot 0 0 = 0`. -/
theorem hypot_zero : hypot 0 0 = 0 := by
  rw [hypot]
  norm_num

/-- `List.getD` at an index untouched by `List.set`. -/
theorem getD_set_ne {α : Type} [Inhabited α] (l : List α) {m n : ℕ} (hmn : m ≠ n)
    (q : α) : (l.set m q).getD n default = l.getD n default := by
  simp [List.getD_eq_getElem?_getD, List.getElem?_set_ne hmn]

/-- Replacing an entry by one with the same id and mass preserves the
pointwise id/mass view of the particle list. -/
theorem set_pidMass (ps : List PhysicsParticle) (j : ℕ) (q : PhysicsParticle)
    (hq : pidMass q = pidMass (ps.getD j default)) (i : ℕ) :
    ((ps.set j q)[i]?).map pidMass = (ps[i]?).map pidMass := by
  rw [List.getElem?_set]
  split_ifs with h hlen
  · subst h
    rw [List.getD_eq_getElem?_getD, List.getElem?_eq_getElem hlen] at hq
    simp [List.getElem?_eq_getElem hlen, hq]
  · subst h
    rw [List.getElem?_eq_none (le_of_not_lt hlen)]
  · rfl

/-- For every key outside the hierarchy, `getParentWorldAngle` falls into the
`if (!parentKey) return 0` branch. -/
theorem getParentWorldAngle_unknown_zero (key : String) (pose : PoseData)
    (h : hierarchy key = none) : getParentWorldAngle key pose = some 0 := by
  unfold getParentWorldAngle
  rw [h]
  rfl

/-- Claim C5 (settled as a code bug): the spec requires `getParentWorldAngle`
to return the null sentinel for every unrecognized key, but the source's
`if (!parentKey) return 0` guard conflates the `undefined` lookup of an
unknown key with the `null` parent of `'ground'`, so every unknown key gets
the numeric angle `0` — indistinguishable from a genuine parent world angle
of `0`. -/
theorem getParentWorldAngle_unknown_key :
    ∀ pose : PoseData, getParentWorldAngle "foo" pose = some 0 := fun pose =>
  getParentWorldAngle_unknown_zero "foo" pose (by simp +decide [hierarchy])

/-- Witness for `getParentWorldAngle_unknown_zero`: the unknown key `"foo"`
on the all-zero pose. -/
theorem getParentWorldAngle_unknown_zero_witness :
    hierarchy "foo" = none ∧
      getParentWorldAngle "foo" ⟨0, ⟨0, 0⟩, 0, 0, 0, ⟨0, 0, 0, 0, 0, 0⟩, ⟨0, 0, 0, 0, 0, 0⟩⟩ =
        some 0 :=
  ⟨by simp +decide [hierarchy],
   getParentWorldAngle_unknown_zero "foo" _ (by simp +decide [hierarchy])⟩

/-- Clamping to `[0,1]` is idempotent. -/
theorem clamp01_idem (t : ℝ) : max 0 (min 1 (max 0 (min 1 t))) = max 0 (min 1 t) := by
  have h0 : (0 : ℝ) ≤ max 0 (min 1 t) := le_max_left 0 _
  have h1 : max 0 (min 1 t) ≤ 1 := max_le (by norm_num) (min_le_left 1 t)
  rw [min_eq_right h1, max_eq_right h0]

/-- Both easing functions fix `0`. -/
theorem easingFn_zero (e : Easing) : easingFn e 0 = 0 := by
  cases e <;> simp [easingFn]

/-- Both easing functions fix `1`. -/
theorem easingFn_one (e : Easing) : easingFn e 1 = 1 := by
  cases e <;> simp [easingFn, Real.cos_pi] <;> norm_num

/-- The linear easing fixes `1/2`. -/
theorem easingFn_linear_half : easingFn Easing.linear (1 / 2) = 1 / 2 := rfl

/-- Claim C6: for both easings, interpolation at `t = 0` returns `poseA` and
at `t = 1` returns `poseB` on every numeric field; at `t = 0.5` with the
linear easing it returns the field-wise arithmetic mean; and for every `t`
the result equals the result at the clamped value of `t`. -/
theorem interpolatePose_boundary (a b : PoseData) :
    (∀ e, interpolatePose a b 0 e = a) ∧
    (∀ e, interpolatePose a b 1 e = b) ∧
    interpolatePose a b (1 / 2) Easing.linear = meanPose a b ∧
    (∀ t e, interpolatePose a b t e = interpolatePose a b (max 0 (min 1 t)) e) := by
  refine ⟨fun e => ?_, fun e => ?_, ?_, fun t e => ?_⟩
  · have hct : max (0 : ℝ) (min 1 0) = 0 := by norm_num
    ext <;> simp only [interpolatePose, lerpLeaf] <;> rw [hct, easingFn_zero] <;> ring
  · have hct : max (0 : ℝ) (min 1 1) = 1 := by norm_num
    ext <;> simp only [interpolatePose, lerpLeaf] <;> rw [hct, easingFn_one] <;> ring
  · have hct : max (0 : ℝ) (min 1 (1 / 2)) = 1 / 2 := by norm_num
    ext <;> simp only [interpolatePose, lerpLeaf, meanPose] <;> rw [hct, easingFn_linear_half] <;>
      ring
  · unfold interpolatePose
    rw [clamp01_idem]

/-- After collision resolution a particle lies above the ground plane and
within the horizontal canvas bounds. -/
theorem collideParticle_bounds (p : PhysicsParticle) :
    (collideParticle p).pos.y ≤ GROUND_PLANE_Y ∧ 10 ≤ (collideParticle p).pos.x ∧
      (collideParticle p).pos.x ≤ W - 10 := by
  unfold collideParticle
  simp only [GROUND_PLANE_Y, W, H]
  split_ifs <;> simp_all <;> linarith

/-- A list fold whose step ignores the elements returns its initial value. -/
theorem foldl_fixed {α β : Type} (a : α) (l : List β) :
    l.foldl (fun x _ => x) a = a := by
  induction l generalizing a with
  | nil => rfl
  | cons _ _ ih => exact ih a

/-- Claim C7: after every physics step, every particle of the body lies on or
above the ground plane (`y ≤ GROUND_PLANE_Y`) and within the horizontal
canvas bounds (`10 ≤ x ≤ W - 10`), for every `dt`, target skeleton, and
pre-step particle state. -/
theorem updatePhysicsBody_bounds (body : PhysicsBody) (dt : ℝ)
    (targetSkeleton : Option Skeleton) (q : PhysicsParticle)
    (hq : q ∈ (updatePhysicsBody body dt targetSkeleton).particles) :
    q.pos.y ≤ GROUND_PLANE_Y ∧ 10 ≤ q.pos.x ∧ q.pos.x ≤ W - 10 := by
  unfold updatePhysicsBody at hq
  simp only [List.mem_map] at hq
  obtain ⟨r, -, rfl⟩ := hq
  exact collideParticle_bounds r

/-- Integration changes only `pos` and `prevPos`. -/
theorem integrateParticle_id_mass (dtSq : ℝ) (ts : Option Skeleton) (p : PhysicsParticle) :
    (integrateParticle dtSq ts p).id = p.id ∧ (integrateParticle dtSq ts p).mass = p.mass := by
  unfold integrateParticle
  split <;> exact ⟨rfl, rfl⟩

/-- Collision resolution changes only `pos` and `prevPos`. -/
theorem collideParticle_id_mass (p : PhysicsParticle) :
    (collideParticle p).id = p.id ∧ (collideParticle p).mass = p.mass := by
  unfold collideParticle
  dsimp only
  split_ifs <;> exact ⟨rfl, rfl⟩

/-- One constraint relaxation preserves every particle's id and mass. -/
theorem solveConstraint_pidMass (ps : List PhysicsParticle) (c : PhysicsConstraint)
    (i : ℕ) : ((solveConstraint ps c)[i]?).map pidMass = (ps[i]?).map pidMass := by
  unfold solveConstraint
  dsimp only
  set pA := ps.getD c.particleAIndex default with hpA
  set pB := ps.getD c.particleBIndex default with hpB
  by_cases h1 : hypot (pB.pos.x - pA.pos.x) (pB.pos.y - pA.pos.y) < 0.001
  · rw [if_pos h1]
  · rw [if_neg h1]
    by_cases h2 : pA.mass + pB.mass = 0
    · rw [if_pos h2]
    · rw [if_neg h2]
      have hab : c.particleAIndex ≠ c.particleBIndex := by
        intro h
        apply h1
        have hAB : pA = pB := by rw [hpA, hpB, h]
        rw [hAB, sub_self, sub_self, hypot_zero]
        norm_num
      refine (set_pidMass _ c.particleBIndex _ ?_ i).trans
        (set_pidMass ps c.particleAIndex _ ?_ i)
      · rw [getD_set_ne ps hab, ← hpB]
        rfl
      · rfl

/-- One full constraint pass preserves every particle's id and mass. -/
theorem solverPass_pidMass (cs : List PhysicsConstraint) (ps : List PhysicsParticle)
    (i : ℕ) : ((solverPass cs ps)[i]?).map pidMass = (ps[i]?).map pidMass := by
  unfold solverPass
  induction cs generalizing ps with
  | nil => rfl
  | cons c cs ih => rw [List.foldl_cons, ih, solveConstraint_pidMass]

/-- One constraint relaxation preserves the particle count. -/
theorem solveConstraint_length (ps : List PhysicsParticle) (c : PhysicsConstraint) :
    (solveConstraint ps c).length = ps.length := by
  unfold solveConstraint
  dsimp only
  split_ifs <;> simp

/-- One full constraint pass preserves the particle count. -/
theorem solverPass_length (cs : List PhysicsConstraint) (ps : List PhysicsParticle) :
    (solverPass cs ps).length = ps.length := by
  unfold solverPass
  induction cs generalizing ps with
  | nil => rfl
  | cons c cs ih => rw [List.foldl_cons, ih, solveConstraint_length]

/-- The iterated solver preserves id, mass and count. -/
theorem solverIter_pidMass_length (cs : List PhysicsConstraint) (n : ℕ)
    (ps : List PhysicsParticle) :
    (∀ i : ℕ, (((List.range n).foldl (fun l _ => solverPass cs l) ps)[i]?).map pidMass =
      (ps[i]?).map pidMass) ∧
    ((List.range n).foldl (fun l _ => solverPass cs l) ps).length = ps.length := by
  induction n generalizing ps with
  | zero => exact ⟨fun i => rfl, rfl⟩
  | succ n ih =>
    rw [List.range_succ_eq_map]
    simp only [List.foldl_cons, List.foldl_map]
    obtain ⟨h1, h2⟩ := ih (solverPass cs ps)
    exact ⟨fun i => (h1 i).trans (solverPass_pidMass cs ps i),
           h2.trans (solverPass_length cs ps)⟩

/-- Claim C9: a physics step mutates only particle positions: the constraint
list, the joint-key → index map, the particle count, and every particle's id
and mass are unchanged by `updatePhysicsBody`, for every body, `dt` and
target skeleton. -/
theorem updatePhysicsBody_frame (body : PhysicsBody) (dt : ℝ)
    (targetSkeleton : Option Skeleton) :
    (updatePhysicsBody body dt targetSkeleton).constraints = body.constraints ∧
    (updatePhysicsBody body dt targetSkeleton).particleMap = body.particleMap ∧
    (updatePhysicsBody body dt targetSkeleton).particles.length = body.particles.length ∧
    ∀ i : ℕ, (((updatePhysicsBody body dt targetSkeleton).particles)[i]?).map pidMass =
      ((body.particles)[i]?).map pidMass := by
  refine ⟨rfl, rfl, ?_, ?_⟩
  · unfold updatePhysicsBody
    simp only [List.length_map]
    rw [(solverIter_pidMass_length body.constraints SOLVER_ITERATIONS _).2,
        List.length_map]
  · intro i
    unfold updatePhysicsBody
    simp only [List.getElem?_map]
    have h1 := (solverIter_pidMass_length body.constraints SOLVER_ITERATIONS
      (body.particles.map (integrateParticle (dt * dt) targetSkeleton))).1 i
    -- collision preserves pidMass pointwise
    have hcol : ∀ o : Option PhysicsParticle,
        (o.map collideParticle).map pidMass = o.map pidMass := by
      intro o
      cases o with
      | none => rfl
      | some p =>
        have := collideParticle_id_mass p
        simp [pidMass, this.1, this.2]
    rw [hcol, h1]
    simp only [List.getElem?_map]
    have hint : ∀ o : Option PhysicsParticle,
        (o.map (integrateParticle (dt * dt) targetSkeleton)).map pidMass = o.map pidMass := by
      intro o
      cases o with
      | none => rfl
      | some p =>
        have := integrateParticle_id_mass (dt * dt) targetSkeleton p
        simp [pidMass, this.1, this.2]
    rw [hint]

-- --- IK stretch fallback (C3) ---

/-- `hypot` is nonnegative. -/
theorem hypot_nonneg (a b : ℝ) : 0 ≤ hypot a b := Real.sqrt_nonneg _

/-- `hypot` of a common scaling. -/
theorem hypot_scale (c a b : ℝ) : hypot (c * a) (c * b) = |c| * hypot a b := by
  rw [hypot, hypot, show (c * a) ^ 2 + (c * b) ^ 2 = c ^ 2 * (a ^ 2 + b ^ 2) by ring,
      Real.sqrt_mul (sq_nonneg c), Real.sqrt_sq_eq_abs]

/-- Evaluate a concrete distance from a sum-of-squares identity. -/
theorem distance_eval {x1 y1 x2 y2 c : ℝ} (h : (x1 - x2) ^ 2 + (y1 - y2) ^ 2 = c ^ 2)
    (hc : 0 ≤ c) : distance ⟨x1, y1⟩ ⟨x2, y2⟩ = c := by
  rw [distance, hypot]
  dsimp only
  rw [h, Real.sqrt_sq hc]

/-- Distance between two points of the same ray is the difference of their
arc lengths. -/
theorem distance_rayPoint (p0 target : Point) (s t d : ℝ) (hd : d = distance p0 target)
    (hd0 : 0 < d) (hst : s ≤ t) :
    distance (rayPoint p0 target s d) (rayPoint p0 target t d) = t - s := by
  have hx : (rayPoint p0 target s d).x - (rayPoint p0 target t d).x =
      (s - t) / d * (target.x - p0.x) := by
    simp [rayPoint]; ring
  have hy : (rayPoint p0 target s d).y - (rayPoint p0 target t d).y =
      (s - t) / d * (target.y - p0.y) := by
    simp [rayPoint]; ring
  rw [distance, hx, hy, hypot_scale]
  have hsym : hypot (target.x - p0.x) (target.y - p0.y) = d := by
    rw [hd, distance,
        show p0.x - target.x = (-1) * (target.x - p0.x) by ring,
        show p0.y - target.y = (-1) * (target.y - p0.y) by ring, hypot_scale]
    simp
  rw [hsym, abs_div, abs_of_pos hd0, abs_of_nonpos (by linarith), div_mul_cancel₀]
  · ring
  · exact ne_of_gt hd0

/-- The ray at arc length `0` is the root. -/
theorem rayPoint_zero (p0 target : Point) (d : ℝ) : rayPoint p0 target 0 d = p0 := by
  ext <;> simp [rayPoint]

/-- Claim C3: for a 3-point chain whose target lies farther from the root than
the chain's total rest length, `solveFabrik` takes the non-iterative stretch
branch and returns the root unchanged followed by the two re-projections onto
the ray from the root toward the target at arc lengths `l1` and `l1 + l2`; in
particular the segments have lengths exactly `l1` and `l2`, the cumulative
length is `l1 + l2`, and the chain points straight at the target. -/
theorem solveFabrik_unreachable (p0 p1 p2 target : Point) (iters : ℕ) (tol : ℝ)
    (h : distance p0 p1 + distance p1 p2 < distance p0 target) :
    solveFabrik [p0, p1, p2] target iters tol =
      [p0, rayPoint p0 target (distance p0 p1) (distance p0 target),
       rayPoint p0 target (distance p0 p1 + distance p1 p2) (distance p0 target)] ∧
    distance p0 (rayPoint p0 target (distance p0 p1) (distance p0 target)) =
      distance p0 p1 ∧
    distance (rayPoint p0 target (distance p0 p1) (distance p0 target))
        (rayPoint p0 target (distance p0 p1 + distance p1 p2) (distance p0 target)) =
      distance p1 p2 ∧
    distance p0
        (rayPoint p0 target (distance p0 p1 + distance p1 p2) (distance p0 target)) =
      distance p0 p1 + distance p1 p2 := by
  set l1 := distance p0 p1 with hl1
  set l2 := distance p1 p2 with hl2
  set d := distance p0 target with hd
  have hl1n : 0 ≤ l1 := hypot_nonneg _ _
  have hl2n : 0 ≤ l2 := hypot_nonneg _ _
  have hd0 : 0 < d := lt_of_le_of_lt (by linarith) h
  refine ⟨?_, ?_, ?_, ?_⟩
  · have hlen : segLengths [p0, p1, p2] = [l1, l2] := by
      simp [segLengths, List.range_succ, List.getD]
    unfold solveFabrik
    rw [hlen]
    simp only [List.length_cons, List.length_nil, List.sum_cons, List.sum_nil, List.getD]
    rw [if_neg (by norm_num)]
    rw [show (([p0, p1, p2].get? 0).getD default) = p0 from rfl]
    rw [add_zero, ← hd, if_pos h]
    have htarget : rayPoint p0 target d d = target := by
      ext <;> simp [rayPoint, div_self (ne_of_gt hd0)] <;> ring
    have hdist1 : distance (rayPoint p0 target l1 d) target = d - l1 := by
      have heq : distance (rayPoint p0 target l1 d) target =
          distance (rayPoint p0 target l1 d) (rayPoint p0 target d d) := by rw [htarget]
      exact heq.trans (distance_rayPoint p0 target l1 d d hd hd0 (by linarith))
    have h1 : stretchUpdate [l1, l2] target [p0, p1, p2] 0 =
        [p0, rayPoint p0 target l1 d, p2] := by
      unfold stretchUpdate
      dsimp only [List.getD_cons_zero]
      rw [← hd]
      simp only [List.set, rayPoint, List.cons.injEq, Point.mk.injEq, true_and, and_true]
      constructor <;> ring
    have h2 : stretchUpdate [l1, l2] target [p0, rayPoint p0 target l1 d, p2] 1 =
        [p0, rayPoint p0 target l1 d, rayPoint p0 target (l1 + l2) d] := by
      unfold stretchUpdate
      dsimp only [List.getD_cons_zero, List.getD_cons_succ]
      rw [hdist1]
      simp only [List.set, rayPoint, List.cons.injEq, Point.mk.injEq, true_and, and_true]
      have hdl1 : d - l1 ≠ 0 := by linarith
      have hdne : d ≠ 0 := ne_of_gt hd0
      constructor <;> (field_simp; ring)
    unfold stretchChain
    rw [show List.range ([p0, p1, p2].length - 1) = [0, 1] from rfl]
    rw [List.foldl_cons, List.foldl_cons, List.foldl_nil, h1, h2]
  · have := distance_rayPoint p0 target 0 l1 d hd hd0 hl1n
    rw [rayPoint_zero] at this
    rw [this]
    ring
  · have := distance_rayPoint p0 target l1 (l1 + l2) d hd hd0 (by linarith)
    rw [this]
    ring
  · have := distance_rayPoint p0 target 0 (l1 + l2) d hd hd0 (by linarith)
    rw [rayPoint_zero] at this
    rw [this]
    ring

/-- Witness for `solveFabrik_unreachable`: the chain `(0,0), (3,0), (3,4)`
(rest lengths 3 and 4) with target `(25,0)` at distance 25 > 7. -/
theorem solveFabrik_unreachable_witness :
    distance ⟨0, 0⟩ ⟨3, 0⟩ + distance ⟨3, 0⟩ ⟨3, 4⟩ < distance ⟨0, 0⟩ ⟨25, 0⟩ ∧
    solveFabrik [⟨0, 0⟩, ⟨3, 0⟩, ⟨3, 4⟩] ⟨25, 0⟩ 10 0.1 =
      [⟨0, 0⟩, rayPoint ⟨0, 0⟩ ⟨25, 0⟩ (distance ⟨0, 0⟩ ⟨3, 0⟩) (distance ⟨0, 0⟩ ⟨25, 0⟩),
       rayPoint ⟨0, 0⟩ ⟨25, 0⟩ (distance ⟨0, 0⟩ ⟨3, 0⟩ + distance ⟨3, 0⟩ ⟨3, 4⟩)
         (distance ⟨0, 0⟩ ⟨25, 0⟩)] := by
  have e1 : distance (⟨0, 0⟩ : Point) ⟨3, 0⟩ = 3 := distance_eval (by norm_num) (by norm_num)
  have e2 : distance (⟨3, 0⟩ : Point) ⟨3, 4⟩ = 4 := distance_eval (by norm_num) (by norm_num)
  have e3 : distance (⟨0, 0⟩ : Point) ⟨25, 0⟩ = 25 :=
    distance_eval (by norm_num) (by norm_num)
  have h : distance (⟨0, 0⟩ : Point) ⟨3, 0⟩ + distance (⟨3, 0⟩ : Point) ⟨3, 4⟩ <
      distance (⟨0, 0⟩ : Point) ⟨25, 0⟩ := by
    rw [e1, e2, e3]; norm_num
  exact ⟨h, (solveFabrik_unreachable ⟨0, 0⟩ ⟨3, 0⟩ ⟨3, 4⟩ ⟨25, 0⟩ 10 0.1 h).1⟩

-- --- Zero-mass constraint handling (C4) ---

/-- Evaluate `hypot` from a sum-of-squares identity. -/
theorem hypot_eval {a b c : ℝ} (h : a ^ 2 + b ^ 2 = c ^ 2) (hc : 0 ≤ c) :
    hypot a b = c := by
  rw [hypot, h, Real.sqrt_sq hc]

/-- Claim C4 (settled as a code bug): the spec requires a zero-mass endpoint
to be an immovable anchor that never receives positional correction, but the
source's share guards are inverted — `pA` moves by `pBShare` (which the
`pB.mass > 0` ternary sets to `pB.mass/totalMass = 1` when `pA.mass = 0`), so
the zero-mass endpoint receives the full correction.  Concretely, one physics
step with `dt = 0` and no target moves the zero-mass particle of
`zeroMassBody` from `(100,100)` to `(101,100)`. -/
theorem updatePhysicsBody_zero_mass_moved :
    (zeroMassBody.particles.getD 0 default).mass = 0 ∧
    (zeroMassBody.particles.getD 0 default).pos = ⟨100, 100⟩ ∧
    ((updatePhysicsBody zeroMassBody 0 none).particles.getD 0 default).pos = ⟨101, 100⟩ := by
  refine ⟨rfl, rfl, ?_⟩
  have h20 : hypot (2 : ℝ) 0 = 2 := hypot_eval (by norm_num) (by norm_num)
  have hint : zeroMassBody.particles.map (integrateParticle 0 none) =
      [⟨"a", ⟨100, 100⟩, ⟨100, 100⟩, 0⟩, ⟨"b", ⟨102, 100⟩, ⟨102, 100⟩, 1⟩] := by
    simp [zeroMassBody, integrateParticle, GRAVITY]
  have hsolve1 : solveConstraint
      [⟨"a", ⟨100, 100⟩, ⟨100, 100⟩, 0⟩, ⟨"b", ⟨102, 100⟩, ⟨102, 100⟩, 1⟩] ⟨0, 1, 1⟩ =
      [⟨"a", ⟨101, 100⟩, ⟨100, 100⟩, 0⟩, ⟨"b", ⟨101, 100⟩, ⟨102, 100⟩, 1⟩] := by
    unfold solveConstraint
    norm_num [h20]
  have hsolve2 : solveConstraint
      [⟨"a", ⟨101, 100⟩, ⟨100, 100⟩, 0⟩, ⟨"b", ⟨101, 100⟩, ⟨102, 100⟩, 1⟩] ⟨0, 1, 1⟩ =
      [⟨"a", ⟨101, 100⟩, ⟨100, 100⟩, 0⟩, ⟨"b", ⟨101, 100⟩, ⟨102, 100⟩, 1⟩] := by
    unfold solveConstraint
    norm_num [hypot_zero]
  have hp1 : solverPass [⟨0, 1, 1⟩]
      [⟨"a", ⟨100, 100⟩, ⟨100, 100⟩, 0⟩, ⟨"b", ⟨102, 100⟩, ⟨102, 100⟩, 1⟩] =
      [⟨"a", ⟨101, 100⟩, ⟨100, 100⟩, 0⟩, ⟨"b", ⟨101, 100⟩, ⟨102, 100⟩, 1⟩] := by
    unfold solverPass
    rw [List.foldl_cons, List.foldl_nil, hsolve1]
  have hp2 : solverPass [⟨0, 1, 1⟩]
      [⟨"a", ⟨101, 100⟩, ⟨100, 100⟩, 0⟩, ⟨"b", ⟨101, 100⟩, ⟨102, 100⟩, 1⟩] =
      [⟨"a", ⟨101, 100⟩, ⟨100, 100⟩, 0⟩, ⟨"b", ⟨101, 100⟩, ⟨102, 100⟩, 1⟩] := by
    unfold solverPass
    rw [List.foldl_cons, List.foldl_nil, hsolve2]
  have hcol : collideParticle ⟨"a", ⟨101, 100⟩, ⟨100, 100⟩, 0⟩ =
      ⟨"a", ⟨101, 100⟩, ⟨100, 100⟩, 0⟩ := by
    unfold collideParticle
    norm_num [GROUND_PLANE_Y, W, H]
  unfold updatePhysicsBody
  dsimp only
  rw [show (0 : ℝ) * 0 = 0 by norm_num, hint,
      show List.range SOLVER_ITERATIONS = [0, 1, 2, 3, 4, 5, 6, 7, 8, 9] from rfl]
  simp only [show zeroMassBody.constraints = [⟨0, 1, 1⟩] from rfl]
  simp only [List.foldl_cons, List.foldl_nil, hp1, hp2]
  simp only [List.map_cons, hcol]
  rfl

/-- Witness for `updatePhysicsBody_bounds`: one step of `singleBody` with
`dt = 0` leaves its particle at `(100,100)`, which satisfies all three
bounds. -/
theorem updatePhysicsBody_bounds_witness :
    (⟨"p", ⟨100, 100⟩, ⟨100, 100⟩, 1⟩ : PhysicsParticle) ∈
      (updatePhysicsBody singleBody 0 none).particles ∧
    ((⟨"p", ⟨100, 100⟩, ⟨100, 100⟩, 1⟩ : PhysicsParticle).pos.y ≤ GROUND_PLANE_Y ∧
     10 ≤ (⟨"p", ⟨100, 100⟩, ⟨100, 100⟩, 1⟩ : PhysicsParticle).pos.x ∧
     (⟨"p", ⟨100, 100⟩, ⟨100, 100⟩, 1⟩ : PhysicsParticle).pos.x ≤ W - 10) := by
  have heq : (updatePhysicsBody singleBody 0 none).particles =
      [⟨"p", ⟨100, 100⟩, ⟨100, 100⟩, 1⟩] := by
    unfold updatePhysicsBody
    dsimp only
    rw [show (0 : ℝ) * 0 = 0 by norm_num]
    have hint : singleBody.particles.map (integrateParticle 0 none) =
        [⟨"p", ⟨100, 100⟩, ⟨100, 100⟩, 1⟩] := by
      simp [singleBody, integrateParticle, GRAVITY]
    rw [hint]
    simp only [show singleBody.constraints = ([] : List PhysicsConstraint) from rfl]
    simp only [show ∀ ps : List PhysicsParticle, solverPass [] ps = ps from fun _ => rfl]
    rw [foldl_fixed]
    have hcol : collideParticle ⟨"p", ⟨100, 100⟩, ⟨100, 100⟩, 1⟩ =
        ⟨"p", ⟨100, 100⟩, ⟨100, 100⟩, 1⟩ := by
      unfold collideParticle
      norm_num [GROUND_PLANE_Y, W, H]
    simp only [List.map_cons, List.map_nil, hcol]
  have hmem : (⟨"p", ⟨100, 100⟩, ⟨100, 100⟩, 1⟩ : PhysicsParticle) ∈
      (updatePhysicsBody singleBody 0 none).particles := by
    rw [heq]
    exact List.mem_singleton.mpr rfl
  exact ⟨hmem, updatePhysicsBody_bounds singleBody 0 none _ hmem⟩

-- --- Constraint creation invariants (C10) ---

/-- If every fold step only appends elements satisfying `Q b`, then every
element of the fold result was in the initial accumulator or satisfies `Q b`
for some list element `b`. -/
theorem foldl_mem_of_step {β γ : Type} (Q : β → γ → Prop) (f : List γ → β → List γ)
    (hf : ∀ acc b c, c ∈ f acc b → c ∈ acc ∨ Q b c) :
    ∀ (l : List β) (acc : List γ) (c : γ), c ∈ l.foldl f acc →
      c ∈ acc ∨ ∃ b ∈ l, Q b c := by
  intro l
  induction l with
  | nil => exact fun acc c h => Or.inl h
  | cons b bs ih =>
    intro acc c h
    rcases ih (f acc b) c h with h1 | ⟨b2, hb2, hq⟩
    · rcases hf acc b c h1 with h2 | hq
      · exact Or.inl h2
      · exact Or.inr ⟨b, List.mem_cons_self b bs, hq⟩
    · exact Or.inr ⟨b2, List.mem_cons_of_mem b hb2, hq⟩

/-- Every constraint appended by one child step has the parent index as its
`A` endpoint, the child's mapped index as its `B` endpoint, and rest length
above `0.1`. -/
theorem childConstraint_mem (particles : List PhysicsParticle) (pm : List (String × ℕ))
    (pi2 : ℕ) (acc2 : List PhysicsConstraint) (ck : String) (c : PhysicsConstraint)
    (hc : c ∈ childConstraint particles pm pi2 acc2 ck) :
    c ∈ acc2 ∨ (0.1 < c.restLength ∧ c.particleAIndex = pi2 ∧
      List.lookup ck pm = some c.particleBIndex) := by
  unfold childConstraint at hc
  cases hlk : List.lookup ck pm with
  | none => rw [hlk] at hc; exact Or.inl hc
  | some ci =>
    rw [hlk] at hc
    dsimp only at hc
    split_ifs at hc with hguard
    · rcases List.mem_append.mp hc with h | h
      · exact Or.inl h
      · rw [List.mem_singleton] at h
        subst h
        exact Or.inr ⟨hguard, rfl, rfl⟩
    · exact Or.inl hc

/-- Every constraint appended by one parent step joins that parent to one of
its hierarchy children, via the particle map, with rest length above `0.1`. -/
theorem constraintStep_mem (particles : List PhysicsParticle) (pm : List (String × ℕ))
    (acc : List PhysicsConstraint) (pk : String) (c : PhysicsConstraint)
    (hc : c ∈ constraintStep particles pm acc pk) :
    c ∈ acc ∨ ∃ e ck, hierarchy pk = some e ∧ ck ∈ e.children ∧
      List.lookup pk pm = some c.particleAIndex ∧
      List.lookup ck pm = some c.particleBIndex ∧ 0.1 < c.restLength := by
  unfold constraintStep at hc
  split_ifs at hc with hg
  · exact Or.inl hc
  · cases hlk : List.lookup pk pm with
    | none => rw [hlk] at hc; exact Or.inl hc
    | some pi2 =>
      rw [hlk] at hc
      cases hh : hierarchy pk with
      | none => rw [hh] at hc; exact Or.inl hc
      | some entry =>
        rw [hh] at hc
        dsimp only at hc
        rcases foldl_mem_of_step
            (fun ck2 c2 => 0.1 < c2.restLength ∧ c2.particleAIndex = pi2 ∧
              List.lookup ck2 pm = some c2.particleBIndex)
            (childConstraint particles pm pi2)
            (childConstraint_mem particles pm pi2)
            entry.children acc c hc with h | ⟨ck2, hck2, hq⟩
        · exact Or.inl h
        · refine Or.inr ⟨entry, ck2, rfl, hck2, ?_, hq.2.2, hq.1⟩
          rw [hq.2.1]

/-- Claim C10: every constraint of a body created from any pose joins a
parent-child pair of the fixed hierarchy (through the body's joint-key →
index map) and has rest length strictly greater than `0.1`; in particular no
degenerate near-zero constraint is ever created, and coincident joint pairs
(such as torso and head) are simply left unlinked. -/
theorem createPhysicsBody_constraints_wf (pose : PoseData) (c : PhysicsConstraint)
    (hc : c ∈ (createPhysicsBodyFromPose pose).constraints) :
    0.1 < c.restLength ∧ ∃ e pk ck, hierarchy pk = some e ∧ ck ∈ e.children ∧
      List.lookup pk (createPhysicsBodyFromPose pose).particleMap = some c.particleAIndex ∧
      List.lookup ck (createPhysicsBodyFromPose pose).particleMap = some c.particleBIndex := by
  have hc2 : c ∈ hierarchyKeys.foldl
      (constraintStep (bodyParticles pose) (bodyMap pose)) [] := hc
  rcases foldl_mem_of_step
      (fun pk c2 => ∃ e ck, hierarchy pk = some e ∧ ck ∈ e.children ∧
        List.lookup pk (bodyMap pose) = some c2.particleAIndex ∧
        List.lookup ck (bodyMap pose) = some c2.particleBIndex ∧ 0.1 < c2.restLength)
      (constraintStep (bodyParticles pose) (bodyMap pose))
      (constraintStep_mem (bodyParticles pose) (bodyMap pose))
      hierarchyKeys [] c hc2 with h | ⟨pk, _, e, ck, hh, hck, ha, hb, hguard⟩
  · exact absurd h (List.not_mem_nil c)
  · exact ⟨hguard, e, pk, ck, hh, hck, ha, hb⟩

-- --- Concrete evaluation at the all-zero pose ---

/-- The joint positions of the skeleton of the all-zero pose. -/
theorem skeleton_zero_joints : (computeSkeleton zeroPose).joints =
    [("root", ⟨400, 346⟩), ("ground", ⟨400, 650⟩), ("torso", ⟨400, 202⟩),
     ("waist", ⟨400, 426⟩), ("head", ⟨400, 202⟩),
     ("left.shoulder", ⟨352, 202⟩), ("left.elbow", ⟨448, 202⟩), ("left.hand", ⟨544, 202⟩),
     ("right.shoulder", ⟨448, 202⟩), ("right.elbow", ⟨544, 202⟩), ("right.hand", ⟨640, 202⟩),
     ("left.hip", ⟨371, 426⟩), ("left.knee", ⟨483, 426⟩), ("left.foot", ⟨595, 426⟩),
     ("right.hip", ⟨429, 426⟩), ("right.knee", ⟨541, 426⟩), ("right.foot", ⟨653, 426⟩)] := by
  unfold computeSkeleton armPart legPart zeroPose
  norm_num [getEndPoint, rotatePoint, W, WAIST_HEIGHT, L_THIGH, L_SHIN, TORSO_HEIGHT,
    HEAD_UNIT, L_ARM, L_FOREARM, Real.cos_pi_div_two, Real.sin_pi_div_two]

/-- The particle entries of the body built from the all-zero pose. -/
theorem entries_zero : bodyEntries zeroPose =
    [("root", ⟨400, 346⟩), ("torso", ⟨400, 202⟩),
     ("waist", ⟨400, 426⟩), ("head", ⟨400, 202⟩),
     ("left.shoulder", ⟨352, 202⟩), ("left.elbow", ⟨448, 202⟩), ("left.hand", ⟨544, 202⟩),
     ("right.shoulder", ⟨448, 202⟩), ("right.elbow", ⟨544, 202⟩), ("right.hand", ⟨640, 202⟩),
     ("left.hip", ⟨371, 426⟩), ("left.knee", ⟨483, 426⟩), ("left.foot", ⟨595, 426⟩),
     ("right.hip", ⟨429, 426⟩), ("right.knee", ⟨541, 426⟩), ("right.foot", ⟨653, 426⟩)] := by
  unfold bodyEntries
  rw [skeleton_zero_joints]
  simp +decide [List.filter]

/-- The joint-key → index map of the body built from the all-zero pose. -/
theorem map_zero : bodyMap zeroPose =
    [("root", 0), ("torso", 1), ("waist", 2), ("head", 3),
     ("left.shoulder", 4), ("left.elbow", 5), ("left.hand", 6),
     ("right.shoulder", 7), ("right.elbow", 8), ("right.hand", 9),
     ("left.hip", 10), ("left.knee", 11), ("left.foot", 12),
     ("right.hip", 13), ("right.knee", 14), ("right.foot", 15)] := by
  unfold bodyMap
  rw [entries_zero]
  simp [List.enum, List.enumFrom]

/-- The particles of the body built from the all-zero pose. -/
theorem particles_zero : bodyParticles zeroPose =
    [⟨"root", ⟨400, 346⟩, ⟨400, 346⟩, 3⟩, ⟨"torso", ⟨400, 202⟩, ⟨400, 202⟩, 3⟩,
     ⟨"waist", ⟨400, 426⟩, ⟨400, 426⟩, 3⟩, ⟨"head", ⟨400, 202⟩, ⟨400, 202⟩, 1⟩,
     ⟨"left.shoulder", ⟨352, 202⟩, ⟨352, 202⟩, 1⟩, ⟨"left.elbow", ⟨448, 202⟩, ⟨448, 202⟩, 1⟩,
     ⟨"left.hand", ⟨544, 202⟩, ⟨544, 202⟩, 0.5⟩,
     ⟨"right.shoulder", ⟨448, 202⟩, ⟨448, 202⟩, 1⟩, ⟨"right.elbow", ⟨544, 202⟩, ⟨544, 202⟩, 1⟩,
     ⟨"right.hand", ⟨640, 202⟩, ⟨640, 202⟩, 0.5⟩,
     ⟨"left.hip", ⟨371, 426⟩, ⟨371, 426⟩, 1⟩, ⟨"left.knee", ⟨483, 426⟩, ⟨483, 426⟩, 1⟩,
     ⟨"left.foot", ⟨595, 426⟩, ⟨595, 426⟩, 0.5⟩,
     ⟨"right.hip", ⟨429, 426⟩, ⟨429, 426⟩, 1⟩, ⟨"right.knee", ⟨541, 426⟩, ⟨541, 426⟩, 1⟩,
     ⟨"right.foot", ⟨653, 426⟩, ⟨653, 426⟩, 0.5⟩] := by
  unfold bodyParticles
  rw [entries_zero]
  simp +decide [mkParticle]
  norm_num

/-- The constraints of the body built from the all-zero pose: 14 links, one
per parent-child pair whose joints do not coincide (torso-head, at distance
0, is skipped). -/
theorem constraints_zero : bodyConstraints zeroPose =
    [⟨0, 1, 144⟩, ⟨0, 2, 80⟩, ⟨1, 4, 48⟩, ⟨1, 7, 48⟩, ⟨2, 10, 29⟩, ⟨2, 13, 29⟩,
     ⟨4, 5, 96⟩, ⟨5, 6, 96⟩, ⟨7, 8, 96⟩, ⟨8, 9, 96⟩,
     ⟨10, 11, 112⟩, ⟨11, 12, 112⟩, ⟨13, 14, 112⟩, ⟨14, 15, 112⟩] := by
  have e1 : hypot (0 : ℝ) (202 - 346) = 144 := hypot_eval (by norm_num) (by norm_num)
  have e2 : hypot (0 : ℝ) (426 - 346) = 80 := hypot_eval (by norm_num) (by norm_num)
  have e4 : hypot ((352 : ℝ) - 400) 0 = 48 := hypot_eval (by norm_num) (by norm_num)
  have e5 : hypot ((448 : ℝ) - 400) 0 = 48 := hypot_eval (by norm_num) (by norm_num)
  have e6 : hypot ((371 : ℝ) - 400) 0 = 29 := hypot_eval (by norm_num) (by norm_num)
  have e7 : hypot ((429 : ℝ) - 400) 0 = 29 := hypot_eval (by norm_num) (by norm_num)
  have e8 : hypot ((448 : ℝ) - 352) 0 = 96 := hypot_eval (by norm_num) (by norm_num)
  have e9 : hypot ((544 : ℝ) - 448) 0 = 96 := hypot_eval (by norm_num) (by norm_num)
  have e10 : hypot ((640 : ℝ) - 544) 0 = 96 := hypot_eval (by norm_num) (by norm_num)
  have e11 : hypot ((483 : ℝ) - 371) 0 = 112 := hypot_eval (by norm_num) (by norm_num)
  have e12 : hypot ((595 : ℝ) - 483) 0 = 112 := hypot_eval (by norm_num) (by norm_num)
  have e13 : hypot ((541 : ℝ) - 429) 0 = 112 := hypot_eval (by norm_num) (by norm_num)
  have e14 : hypot ((653 : ℝ) - 541) 0 = 112 := hypot_eval (by norm_num) (by norm_num)
  have g0 : ¬((0.1 : ℝ) < 0) := by norm_num
  have g29 : (0.1 : ℝ) < 29 := by norm_num
  have g48 : (0.1 : ℝ) < 48 := by norm_num
  have g80 : (0.1 : ℝ) < 80 := by norm_num
  have g96 : (0.1 : ℝ) < 96 := by norm_num
  have g112 : (0.1 : ℝ) < 112 := by norm_num
  have g144 : (0.1 : ℝ) < 144 := by norm_num
  unfold bodyConstraints
  rw [particles_zero, map_zero]
  unfold hierarchyKeys
  simp only [List.foldl_cons, List.foldl_nil]
  simp [constraintStep, childConstraint, hierarchy, List.lookup, hypot_zero,
    e1, e2, e4, e5, e6, e7, e8, e9, e10, e11, e12, e13, e14,
    g0, g29, g48, g80, g96, g112, g144]

/-- Witness for `createPhysicsBody_constraints_wf`: the root-torso constraint
of the body built from the all-zero pose (rest length 144). -/
theorem createPhysicsBody_constraints_wf_witness :
    (⟨0, 1, 144⟩ : PhysicsConstraint) ∈ (createPhysicsBodyFromPose zeroPose).constraints ∧
    (0.1 < (⟨0, 1, 144⟩ : PhysicsConstraint).restLength ∧
     ∃ e pk ck, hierarchy pk = some e ∧ ck ∈ e.children ∧
       List.lookup pk (createPhysicsBodyFromPose zeroPose).particleMap =
         some (⟨0, 1, 144⟩ : PhysicsConstraint).particleAIndex ∧
       List.lookup ck (createPhysicsBodyFromPose zeroPose).particleMap =
         some (⟨0, 1, 144⟩ : PhysicsConstraint).particleBIndex) := by
  have hmem : (⟨0, 1, 144⟩ : PhysicsConstraint) ∈
      (createPhysicsBodyFromPose zeroPose).constraints := by
    show _ ∈ bodyConstraints zeroPose
    rw [constraints_zero]
    exact List.mem_cons_self _ _
  exact ⟨hmem, createPhysicsBody_constraints_wf zeroPose _ hmem⟩

-- --- Pose extraction round trip (C1) ---

/-- The dynamic pose-field write never touches `offset`. -/
theorem setPoseField_offset (pose : PoseData) (k : String) (v : ℝ) :
    (setPoseField pose k v).offset = pose.offset := by
  unfold setPoseField
  split
  · split_ifs <;> rfl
  · split_ifs <;> rfl

/-- The dynamic pose-field write never touches `groundTilt`. -/
theorem setPoseField_groundTilt (pose : PoseData) (k : String) (v : ℝ) :
    (setPoseField pose k v).groundTilt = pose.groundTilt := by
  unfold setPoseField
  split
  · split_ifs <;> rfl
  · split_ifs <;> rfl

/-- A projection respected by every fold step is respected by the fold. -/
theorem foldl_invariant {α β γ : Type} (G : α → γ) (f : α → β → α)
    (hf : ∀ a b, G (f a b) = G a) :
    ∀ (l : List β) (a : α), G (l.foldl f a) = G a := by
  intro l
  induction l with
  | nil => exact fun _ => rfl
  | cons b bs ih => exact fun a => (ih (f a b)).trans (hf a b)

/-- The recursive angle extraction never touches `offset`. -/
theorem calculateAngles_offset (body : PhysicsBody) :
    ∀ (fuel : ℕ) (pk : String) (pw : ℝ) (acc : PoseData),
      (calculateAngles body fuel pk pw acc).offset = acc.offset := by
  intro fuel
  induction fuel with
  | zero => intros; rfl
  | succ n ih =>
    intro pk pw acc
    unfold calculateAngles
    cases hierarchy pk with
    | none => rfl
    | some entry =>
      refine foldl_invariant (fun q => q.offset) _ ?_ entry.children acc
      intro a ck
      cases getParticlePos body pk <;> cases getParticlePos body ck
      · rfl
      · rfl
      · rfl
      · dsimp only
        rw [ih, setPoseField_offset]

/-- The recursive angle extraction never touches `groundTilt`. -/
theorem calculateAngles_groundTilt (body : PhysicsBody) :
    ∀ (fuel : ℕ) (pk : String) (pw : ℝ) (acc : PoseData),
      (calculateAngles body fuel pk pw acc).groundTilt = acc.groundTilt := by
  intro fuel
  induction fuel with
  | zero => intros; rfl
  | succ n ih =>
    intro pk pw acc
    unfold calculateAngles
    cases hierarchy pk with
    | none => rfl
    | some entry =>
      refine foldl_invariant (fun q => q.groundTilt) _ ?_ entry.children acc
      intro a ck
      cases getParticlePos body pk <;> cases getParticlePos body ck
      · rfl
      · rfl
      · rfl
      · dsimp only
        rw [ih, setPoseField_groundTilt]

/-- The root particle of a freshly created body sits at the skeleton's
anatomical root. -/
theorem getParticlePos_create_root (p : PoseData) :
    getParticlePos (createPhysicsBodyFromPose p) "root" =
      some ⟨W / 2 + p.offset.x, 650 + p.offset.y - (WAIST_HEIGHT + L_THIGH + L_SHIN)⟩ := by
  simp +decide [getParticlePos, createPhysicsBodyFromPose, bodyMap, bodyParticles,
    bodyEntries, computeSkeleton, armPart, legPart, mkParticle, List.lookup,
    List.enum, List.enumFrom, List.filter]

/-- The torso (neck) particle of a freshly created body. -/
theorem getParticlePos_create_torso (p : PoseData) :
    getParticlePos (createPhysicsBodyFromPose p) "torso" =
      some ⟨W / 2 + p.offset.x + Real.cos (p.groundTilt + p.torso - π / 2) * TORSO_HEIGHT,
            650 + p.offset.y - (WAIST_HEIGHT + L_THIGH + L_SHIN) +
              Real.sin (p.groundTilt + p.torso - π / 2) * TORSO_HEIGHT⟩ := by
  simp +decide [getParticlePos, createPhysicsBodyFromPose, bodyMap, bodyParticles,
    bodyEntries, computeSkeleton, armPart, legPart, mkParticle, getEndPoint, List.lookup,
    List.enum, List.enumFrom, List.filter]

/-- The waist particle of a freshly created body. -/
theorem getParticlePos_create_waist (p : PoseData) :
    getParticlePos (createPhysicsBodyFromPose p) "waist" =
      some ⟨W / 2 + p.offset.x + Real.cos (p.groundTilt + p.waist + π / 2) * WAIST_HEIGHT,
            650 + p.offset.y - (WAIST_HEIGHT + L_THIGH + L_SHIN) +
              Real.sin (p.groundTilt + p.waist + π / 2) * WAIST_HEIGHT⟩ := by
  simp +decide [getParticlePos, createPhysicsBodyFromPose, bodyMap, bodyParticles,
    bodyEntries, computeSkeleton, armPart, legPart, mkParticle, getEndPoint, List.lookup,
    List.enum, List.enumFrom, List.filter]

/-- Claim C1, amended (the claim as stated fails, see the counterexample
`extractPose_groundTilt_cx`): the extraction round trip on a freshly created
body reproduces the pose's `offset` exactly, for every pose; the angle
fields are in general not reproduced, because the extraction attributes each
`atan2` bone direction to conventions that differ from forward kinematics by
fixed shifts. -/
theorem extractPose_offset_roundTrip (p : PoseData) :
    (extractPoseFromPhysicsBody (createPhysicsBodyFromPose p) p).offset = p.offset := by
  unfold extractPoseFromPhysicsBody
  rw [getParticlePos_create_root p, getParticlePos_create_torso p,
      getParticlePos_create_waist p]
  dsimp only
  rw [calculateAngles_offset]
  ext <;> dsimp only <;> ring

/-- `atan2` of a polar-form point recovers the angle, for `θ ∈ (-π, π]`. -/
theorem atan2_polar {θ r : ℝ} (hr : 0 < r) (hθ : θ ∈ Set.Ioc (-π) π) :
    atan2 (r * Real.sin θ) (r * Real.cos θ) = θ := by
  have h : (⟨r * Real.cos θ, r * Real.sin θ⟩ : ℂ) =
      (r : ℂ) * (Complex.cos θ + Complex.sin θ * Complex.I) := by
    apply Complex.ext <;> simp [Complex.cos_ofReal_re, Complex.sin_ofReal_re]
  rw [atan2, h, Complex.arg_real_mul _ hr]
  exact Complex.arg_cos_add_sin_mul_I hθ

/-- `atan2 (-32) 0 = -π/2` (straight down in canvas coordinates is up on
screen). -/
theorem atan2_neg32 : atan2 (-32) 0 = -(π / 2) := by
  have h1 : (-32 : ℝ) = 32 * Real.sin (-(π / 2)) := by simp
  have h2 : (0 : ℝ) = 32 * Real.cos (-(π / 2)) := by simp
  rw [h1, h2, atan2_polar (by norm_num)]
  constructor
  · nlinarith [Real.pi_gt_three]
  · nlinarith [Real.pi_gt_three]

/-- Claim C1, counterexample: on the all-zero pose the extraction round trip
immediately after body creation returns `groundTilt = -π`, not `0` — the
average core direction points upward (`atan2 = -π/2`) and the source then
subtracts `π/2` instead of adding it. -/
theorem extractPose_groundTilt_cx :
    zeroPose.groundTilt = 0 ∧
    (extractPoseFromPhysicsBody (createPhysicsBodyFromPose zeroPose) zeroPose).groundTilt
      = -π := by
  refine ⟨rfl, ?_⟩
  have hroot : getParticlePos (createPhysicsBodyFromPose zeroPose) "root" =
      some ⟨400, 346⟩ := by
    unfold getParticlePos
    rw [show (createPhysicsBodyFromPose zeroPose).particleMap = bodyMap zeroPose from rfl,
        map_zero,
        show (createPhysicsBodyFromPose zeroPose).particles = bodyParticles zeroPose
          from rfl,
        particles_zero]
    simp [List.lookup]
  have htorso : getParticlePos (createPhysicsBodyFromPose zeroPose) "torso" =
      some ⟨400, 202⟩ := by
    unfold getParticlePos
    rw [show (createPhysicsBodyFromPose zeroPose).particleMap = bodyMap zeroPose from rfl,
        map_zero,
        show (createPhysicsBodyFromPose zeroPose).particles = bodyParticles zeroPose
          from rfl,
        particles_zero]
    simp [List.lookup]
  have hwaist : getParticlePos (createPhysicsBodyFromPose zeroPose) "waist" =
      some ⟨400, 426⟩ := by
    unfold getParticlePos
    rw [show (createPhysicsBodyFromPose zeroPose).particleMap = bodyMap zeroPose from rfl,
        map_zero,
        show (createPhysicsBodyFromPose zeroPose).particles = bodyParticles zeroPose
          from rfl,
        particles_zero]
    simp [List.lookup]
  unfold extractPoseFromPhysicsBody
  rw [hroot, htorso, hwaist]
  dsimp only
  rw [calculateAngles_groundTilt]
  dsimp only
  rw [show ((202 : ℝ) + 426) / 2 - 346 = -32 by norm_num,
      show ((400 : ℝ) + 400) / 2 - 400 = 0 by norm_num, atan2_neg32]
  ring

-- --- FK world-angle composition (C2) ---

/-- Claim C2, amended (the universal claim fails on the leg bones, see the
counterexample `boneAngle_leg_cx`): for every pose, the torso, waist, head
and the six arm bones record exactly `parentWorldAngle + localAngle` as their
world angle (in particular `left.elbow` records `groundTilt + torso +
left.shoulder + left.elbow`), and the ground bone records `groundTilt`; the
six leg bones instead record `parentWorldAngle + localAngle - π/2`, a
rendering convention that breaks the claimed equality by exactly `π/2`. -/
theorem computeSkeleton_worldAngle_composition (p : PoseData) :
    (boneAngle (computeSkeleton p) "ground" = some p.groundTilt) ∧
    (boneAngle (computeSkeleton p) "torso" =
      (getParentWorldAngle "torso" p).map (fun a => a + p.torso)) ∧
    (boneAngle (computeSkeleton p) "waist" =
      (getParentWorldAngle "waist" p).map (fun a => a + p.waist)) ∧
    (boneAngle (computeSkeleton p) "head" =
      (getParentWorldAngle "head" p).map (fun a => a + p.head)) ∧
    (boneAngle (computeSkeleton p) "left.shoulder" =
      (getParentWorldAngle "left.shoulder" p).map (fun a => a + p.left.shoulder)) ∧
    (boneAngle (computeSkeleton p) "left.elbow" =
      (getParentWorldAngle "left.elbow" p).map (fun a => a + p.left.elbow)) ∧
    (boneAngle (computeSkeleton p) "left.hand" =
      (getParentWorldAngle "left.hand" p).map (fun a => a + p.left.hand)) ∧
    (boneAngle (computeSkeleton p) "right.shoulder" =
      (getParentWorldAngle "right.shoulder" p).map (fun a => a + p.right.shoulder)) ∧
    (boneAngle (computeSkeleton p) "right.elbow" =
      (getParentWorldAngle "right.elbow" p).map (fun a => a + p.right.elbow)) ∧
    (boneAngle (computeSkeleton p) "right.hand" =
      (getParentWorldAngle "right.hand" p).map (fun a => a + p.right.hand)) ∧
    (boneAngle (computeSkeleton p) "left.elbow" =
      some (p.groundTilt + p.torso + p.left.shoulder + p.left.elbow)) ∧
    (boneAngle (computeSkeleton p) "left.hip" =
      (getParentWorldAngle "left.hip" p).map (fun a => a + p.left.hip - π / 2)) ∧
    (boneAngle (computeSkeleton p) "left.knee" =
      (getParentWorldAngle "left.knee" p).map (fun a => a + p.left.knee - π / 2)) ∧
    (boneAngle (computeSkeleton p) "left.foot" =
      (getParentWorldAngle "left.foot" p).map (fun a => a + p.left.foot - π / 2)) ∧
    (boneAngle (computeSkeleton p) "right.hip" =
      (getParentWorldAngle "right.hip" p).map (fun a => a + p.right.hip - π / 2)) ∧
    (boneAngle (computeSkeleton p) "right.knee" =
      (getParentWorldAngle "right.knee" p).map (fun a => a + p.right.knee - π / 2)) ∧
    (boneAngle (computeSkeleton p) "right.foot" =
      (getParentWorldAngle "right.foot" p).map (fun a => a + p.right.foot - π / 2)) := by
  refine ⟨?_, ?_, ?_, ?_, ?_, ?_, ?_, ?_, ?_, ?_, ?_, ?_, ?_, ?_, ?_, ?_, ?_⟩ <;>
    simp +decide [boneAngle, computeSkeleton, armPart, legPart, getParentWorldAngle,
      hierarchy, poseSide, List.find?]

/-- Claim C2, counterexample: on the all-zero pose, `getParentWorldAngle` of
`left.knee` plus its local angle is `0`, but the `left.knee` bone records
world angle `-π/2`, so the claimed equality fails on the leg bones. -/
theorem boneAngle_leg_cx :
    getParentWorldAngle "left.knee" zeroPose = some 0 ∧
    zeroPose.left.knee = 0 ∧
    boneAngle (computeSkeleton zeroPose) "left.knee" = some (-(π / 2)) ∧
    (-(π / 2) : ℝ) ≠ 0 + 0 := by
  refine ⟨?_, rfl, ?_, ?_⟩
  · simp +decide [getParentWorldAngle, hierarchy, poseSide, zeroPose]
  · simp +decide [boneAngle, computeSkeleton, armPart, legPart, zeroPose, List.find?]
  · simp [Real.pi_ne_zero]

theorem ArenaLE.refl (s : Arena) : ArenaLE s s := ⟨[], by simp⟩

theorem ArenaLE.trans {s1 s2 s3 : Arena} (h12 : ArenaLE s1 s2) (h23 : ArenaLE s2 s3) :
    ArenaLE s1 s3 := by
  obtain ⟨e1, h1⟩ := h12
  obtain ⟨e2, h2⟩ := h23
  exact ⟨e1 ++ e2, by rw [h2, h1, List.append_assoc]⟩

theorem ArenaLE.alloc (s : Arena) (p : Point) : ArenaLE s (allocA s p).1 := ⟨[p], rfl⟩

theorem ArenaLE.length_le {s s' : Arena} (h : ArenaLE s s') :
    s.cells.length ≤ s'.cells.length := by
  obtain ⟨e, he⟩ := h
  rw [he, List.length_append]
  omega

/-- Reading an existing address is unchanged by heap extension. -/
theorem readA_mono {s s' : Arena} (h : ArenaLE s s') {a : ℕ}
    (ha : a < s.cells.length) : readA s' a = readA s a := by
  obtain ⟨e, he⟩ := h
  rw [readA, readA, he]
  rw [List.getD_append _ _ _ _ ha]

/-- Reading the address just allocated yields the allocated value. -/
theorem readA_alloc (s : Arena) (p : Point) : readA (allocA s p).1 (allocA s p).2 = p := by
  rw [readA, allocA, List.getD_eq_getElem?_getD]
  dsimp only
  rw [List.getElem?_concat_length]
  rfl

/-- `List.getD` at an index untouched by `List.set`, any fallback. -/
theorem getD_set_ne' {α : Type} (l : List α) {m n : ℕ} (hmn : m ≠ n) (q d : α) :
    (l.set m q).getD n d = l.getD n d := by
  simp [List.getD_eq_getElem?_getD, List.getElem?_set_ne hmn]

/-- `List.getD` at an in-range index just written by `List.set`. -/
theorem getD_set_self' {α : Type} (l : List α) {m : ℕ} (hm : m < l.length) (q d : α) :
    (l.set m q).getD m d = q := by
  simp [List.getD_eq_getElem?_getD, List.getElem?_set_self hm]

/-- Fold steps that extend the heap and preserve the chain length and slot 0
give folds that do the same. -/
theorem foldl_state_spec {β : Type} (f : Arena × List ℕ → β → Arena × List ℕ)
    (hf : ∀ st b, ArenaLE st.1 (f st b).1 ∧ (f st b).2.length = st.2.length ∧
      (f st b).2.getD 0 0 = st.2.getD 0 0) :
    ∀ (l : List β) (st : Arena × List ℕ), ArenaLE st.1 ((l.foldl f st).1) ∧
      ((l.foldl f st).2).length = st.2.length ∧
      ((l.foldl f st).2).getD 0 0 = st.2.getD 0 0 := by
  intro l
  induction l with
  | nil => exact fun st => ⟨ArenaLE.refl _, rfl, rfl⟩
  | cons b bs ih =>
    intro st
    obtain ⟨h1, h2, h3⟩ := ih (f st b)
    obtain ⟨g1, g2, g3⟩ := hf st b
    exact ⟨g1.trans h1, h2.trans g2, h3.trans g3⟩

/-- Fold steps that extend the heap and preserve the chain length (slot 0
not tracked). -/
theorem foldl_state_ext {β : Type} (f : Arena × List ℕ → β → Arena × List ℕ)
    (hf : ∀ st b, ArenaLE st.1 (f st b).1 ∧ (f st b).2.length = st.2.length) :
    ∀ (l : List β) (st : Arena × List ℕ), ArenaLE st.1 ((l.foldl f st).1) ∧
      ((l.foldl f st).2).length = st.2.length := by
  intro l
  induction l with
  | nil => exact fun st => ⟨ArenaLE.refl _, rfl⟩
  | cons b bs ih =>
    intro st
    obtain ⟨h1, h2⟩ := ih (f st b)
    obtain ⟨g1, g2⟩ := hf st b
    exact ⟨g1.trans h1, h2.trans g2⟩

/-- The copy loop extends the heap and produces one address per input. -/
theorem copyChainA_spec (s0 : Arena) : ∀ (chain : List ℕ) (s : Arena),
    ArenaLE s (copyChainA s0 s chain).1 ∧
    (copyChainA s0 s chain).2.length = chain.length := by
  intro chain
  induction chain with
  | nil => exact fun s => ⟨ArenaLE.refl _, rfl⟩
  | cons a rest ih =>
    intro s
    obtain ⟨h1, h2⟩ := ih (allocA s (readA s0 a)).1
    refine ⟨(ArenaLE.alloc s _).trans h1, ?_⟩
    show ((copyChainA s0 (allocA s (readA s0 a)).1 rest).2.length) + 1 = rest.length + 1
    rw [h2]

/-- The head copy: its address is the pre-copy heap size, it is valid in the
copy heap, and it reads back the original root object. -/
theorem copyChainA_head (s0 s : Arena) (a : ℕ) (rest : List ℕ) :
    (copyChainA s0 s (a :: rest)).2.getD 0 0 = s.cells.length ∧
    s.cells.length < (copyChainA s0 s (a :: rest)).1.cells.length ∧
    readA (copyChainA s0 s (a :: rest)).1 s.cells.length = readA s0 a := by
  obtain ⟨h1, -⟩ := copyChainA_spec s0 rest (allocA s (readA s0 a)).1
  refine ⟨rfl, ?_, ?_⟩
  · have : s.cells.length < ((allocA s (readA s0 a)).1).cells.length := by
      rw [allocA]
      simp
    exact lt_of_lt_of_le this h1.length_le
  · have hv : s.cells.length < ((allocA s (readA s0 a)).1).cells.length := by
      rw [allocA]
      simp
    have := readA_mono h1 hv
    rw [show (copyChainA s0 s (a :: rest)).1 = (copyChainA s0 (allocA s (readA s0 a)).1 rest).1
          from rfl, this]
    exact readA_alloc s (readA s0 a)

/-- The stretch loop extends the heap, preserves the chain length, and never
touches slot 0. -/
theorem stretchChainA_spec (lengths : List ℝ) (target : Point) (st : Arena × List ℕ) :
    ArenaLE st.1 ((stretchChainA lengths target st).1) ∧
    (stretchChainA lengths target st).2.length = st.2.length ∧
    (stretchChainA lengths target st).2.getD 0 0 = st.2.getD 0 0 := by
  refine foldl_state_spec _ ?_ _ st
  intro st2 i
  refine ⟨ArenaLE.alloc _ _, by simp [stretchUpdateA], ?_⟩
  show (st2.2.set (i + 1) _).getD 0 0 = st2.2.getD 0 0
  exact getD_set_ne' _ (by omega) _ _

/-- The forward pass extends the heap and preserves the chain length. -/
theorem forwardPassA_spec (lengths : List ℝ) (target : Point) (st : Arena × List ℕ) :
    ArenaLE st.1 ((forwardPassA lengths target st).1) ∧
    (forwardPassA lengths target st).2.length = st.2.length := by
  obtain ⟨h1, h2⟩ := foldl_state_ext (forwardUpdateA lengths)
    (fun st2 i => ⟨ArenaLE.alloc _ _, by simp [forwardUpdateA]⟩)
    ((List.range (st.2.length - 1)).reverse)
    ((allocA st.1 target).1, st.2.set (st.2.length - 1) (allocA st.1 target).2)
  exact ⟨(ArenaLE.alloc _ _).trans h1, h2.trans (by simp)⟩

/-- The backward pass extends the heap, preserves the chain length, and pins
slot 0 to the root address. -/
theorem backwardPassA_spec (lengths : List ℝ) (rootAddr : ℕ) (st : Arena × List ℕ)
    (hlen : 0 < st.2.length) :
    ArenaLE st.1 ((backwardPassA lengths rootAddr st).1) ∧
    (backwardPassA lengths rootAddr st).2.length = st.2.length ∧
    (backwardPassA lengths rootAddr st).2.getD 0 0 = rootAddr := by
  obtain ⟨h1, h2, h3⟩ := foldl_state_spec (backwardUpdateA lengths)
    (fun st2 i => ⟨ArenaLE.alloc _ _, by simp [backwardUpdateA],
      getD_set_ne' _ (by omega) _ _⟩)
    (List.range (st.2.length - 1)) (st.1, st.2.set 0 rootAddr)
  refine ⟨h1, h2.trans (by simp), h3.trans ?_⟩
  exact getD_set_self' _ hlen _ _

/-- The FABRIK loop extends the heap, preserves the chain length, and leaves
slot 0 either untouched or pinned to the root address. -/
theorem fabrikLoopA_spec (lengths : List ℝ) (rootAddr : ℕ) (target : Point)
    (tolerance : ℝ) : ∀ (fuel : ℕ) (st : Arena × List ℕ), 0 < st.2.length →
    ArenaLE st.1 ((fabrikLoopA lengths rootAddr target tolerance fuel st).1) ∧
    (fabrikLoopA lengths rootAddr target tolerance fuel st).2.length = st.2.length ∧
    ((fabrikLoopA lengths rootAddr target tolerance fuel st).2.getD 0 0 = st.2.getD 0 0 ∨
     (fabrikLoopA lengths rootAddr target tolerance fuel st).2.getD 0 0 = rootAddr) := by
  intro fuel
  induction fuel with
  | zero => exact fun st _ => ⟨ArenaLE.refl _, rfl, Or.inl rfl⟩
  | succ n ih =>
    intro st hlen
    simp only [fabrikLoopA]
    split_ifs with hcond
    · obtain ⟨f1, f2⟩ := forwardPassA_spec lengths target st
      obtain ⟨b1, b2, b3⟩ := backwardPassA_spec lengths rootAddr
        (forwardPassA lengths target st) (by omega)
      obtain ⟨l1, l2, l3⟩ := ih (backwardPassA lengths rootAddr (forwardPassA lengths target st))
        (by omega)
      refine ⟨f1.trans (b1.trans l1), l2.trans (b2.trans f2), ?_⟩
      rcases l3 with h | h
      · exact Or.inr (h.trans b3)
      · exact Or.inr h
    · exact ⟨ArenaLE.refl _, rfl, Or.inl rfl⟩

/-- Claim C8: `solveFabrik` never mutates its input.  On the explicit-heap
model: every pre-existing object (in particular every input chain point)
reads back unchanged after the call, the returned chain has the input's
length, the value at the returned chain's first slot equals the input
chain's first point (the root is never moved), and the empty chain returns
the empty chain. -/
theorem solveFabrikA_frame (s : Arena) (chain : List ℕ) (target : Point)
    (iters : ℕ) (tol : ℝ) (hvalid : ∀ a ∈ chain, a < s.cells.length) :
    (∀ a, a < s.cells.length →
      readA (solveFabrikA s chain target iters tol).1 a = readA s a) ∧
    (solveFabrikA s chain target iters tol).2.length = chain.length ∧
    (chain ≠ [] →
      readA (solveFabrikA s chain target iters tol).1
          ((solveFabrikA s chain target iters tol).2.getD 0 0) =
        readA s (chain.getD 0 0)) ∧
    (chain = [] → (solveFabrikA s chain target iters tol).2 = []) := by
  cases chain with
  | nil =>
    refine ⟨fun a _ => rfl, rfl, fun h => absurd rfl h, fun _ => rfl⟩
  | cons a0 rest =>
    have ha0 : a0 < s.cells.length := hvalid a0 (List.mem_cons_self a0 rest)
    obtain ⟨hcp1, hcp2⟩ := copyChainA_spec s (a0 :: rest) s
    obtain ⟨hh1, hh2, hh3⟩ := copyChainA_head s s a0 rest
    have hread0 : readA (copyChainA s s (a0 :: rest)).1 s.cells.length = readA s a0 := hh3
    unfold solveFabrikA
    rw [if_neg (by simp)]
    dsimp only
    set cp := copyChainA s s (a0 :: rest) with hcp
    set al := allocA cp.1 (readA cp.1 (cp.2.getD 0 0)) with hal
    have halLE : ArenaLE cp.1 al.1 := ArenaLE.alloc _ _
    have hlen0 : 0 < cp.2.length := by rw [hcp2]; simp
    have hvalRoot : al.2 < al.1.cells.length := by
      rw [hal, allocA]
      simp
    have hreadRoot : readA al.1 al.2 = readA s a0 := by
      rw [hal]
      rw [readA_alloc cp.1 (readA cp.1 (cp.2.getD 0 0))]
      rw [hh1, hread0]
    split_ifs with hbranch
    · obtain ⟨s1, s2, s3⟩ := stretchChainA_spec
        (segLengths (List.map (readA cp.1) cp.2)) target (al.1, cp.2)
      have hLE : ArenaLE s ((stretchChainA _ target (al.1, cp.2)).1) :=
        (hcp1.trans halLE).trans s1
      refine ⟨fun a ha => readA_mono hLE ha, s2.trans hcp2, fun _ => ?_, fun h => by
        exact absurd h (by simp)⟩
      rw [s3]
      show readA _ (cp.2.getD 0 0) = readA s a0
      rw [hh1]
      have hv : s.cells.length < al.1.cells.length :=
        lt_of_lt_of_le hh2 halLE.length_le
      rw [readA_mono s1 hv]
      show readA al.1 s.cells.length = readA s a0
      rw [readA_mono halLE hh2, hh1.symm]
      rw [hh1, hread0]
    · obtain ⟨l1, l2, l3⟩ := fabrikLoopA_spec
        (segLengths (List.map (readA cp.1) cp.2)) al.2 target tol iters (al.1, cp.2) hlen0
      have hLE : ArenaLE s ((fabrikLoopA _ al.2 target tol iters (al.1, cp.2)).1) :=
        (hcp1.trans halLE).trans l1
      refine ⟨fun a ha => readA_mono hLE ha, l2.trans hcp2, fun _ => ?_, fun h => by
        exact absurd h (by simp)⟩
      rcases l3 with h0 | h0
      · rw [h0]
        show readA _ (cp.2.getD 0 0) = readA s a0
        rw [hh1]
        have hv : s.cells.length < al.1.cells.length :=
          lt_of_lt_of_le hh2 halLE.length_le
        rw [readA_mono l1 hv]
        show readA al.1 s.cells.length = readA s a0
        rw [readA_mono halLE hh2, hh1.symm]
        rw [hh1, hread0]
      · rw [h0]
        rw [readA_mono l1 hvalRoot]
        exact hreadRoot

/-- Witness for `solveFabrikA_frame`: a heap holding the single point
`(0,0)`, the one-point chain `[0]`, and target `(3,4)`. -/
theorem solveFabrikA_frame_witness :
    (∀ a ∈ [0], a < (Arena.mk [⟨0, 0⟩]).cells.length) ∧
    ((∀ a, a < (Arena.mk [⟨0, 0⟩]).cells.length →
      readA (solveFabrikA ⟨[⟨0, 0⟩]⟩ [0] ⟨3, 4⟩ 10 0.1).1 a = readA ⟨[⟨0, 0⟩]⟩ a) ∧
    (solveFabrikA ⟨[⟨0, 0⟩]⟩ [0] ⟨3, 4⟩ 10 0.1).2.length = [0].length ∧
    ([0] ≠ ([] : List ℕ) →
      readA (solveFabrikA ⟨[⟨0, 0⟩]⟩ [0] ⟨3, 4⟩ 10 0.1).1
          ((solveFabrikA ⟨[⟨0, 0⟩]⟩ [0] ⟨3, 4⟩ 10 0.1).2.getD 0 0) =
        readA ⟨[⟨0, 0⟩]⟩ ([0].getD 0 0)) ∧
    ([0] = ([] : List ℕ) → (solveFabrikA ⟨[⟨0, 0⟩]⟩ [0] ⟨3, 4⟩ 10 0.1).2 = [])) := by
  have hvalid : ∀ a ∈ [0], a < (Arena.mk [⟨0, 0⟩]).cells.length := by simp
  exact ⟨hvalid, solveFabrikA_frame ⟨[⟨0, 0⟩]⟩ [0] ⟨3, 4⟩ 10 0.1 hvalid⟩

end Puppet
